import Mathlib

/-!
# odissey: request router (`core/od_router.c`)

A shallow embedding of the three functions of `core/od_router.c`

* `od_route`          (lines 36-80),
* `od_router_session` (lines 82-147),
* `od_router`         (lines 149-221),

together with the properties of the routing / session / cleanup logic that the
design document states about them.

## Modelling conventions

* Pointers that may be `NULL` are `Option`s; `NULL` is `none`.
* A C string is a `String`; `strlen` is its size in bytes.
* Every collaborator of the router that lives in another translation unit
  (`od_schemeroute_match`, `od_routepool_match`, `od_routepool_new`, `od_bepop`,
  `od_read`, `od_write`, `od_festartup`, `od_feauth`, `od_feready`) is a field
  of the record `Extern W`: a function on an arbitrary type `W` of "everything
  mutable outside the router" (route pool, server pools, sockets).  The router
  is proved correct for *every* such record, i.e. for every behaviour of its
  collaborators.
* A collaborator that reports failure through `rc == -1` (or `NULL`) returns
  `false` (or `none`).
* The calls the properties speak about are recorded, in program order, in a
  trace of `Event`s.
* The two loops of `od_router_session` are recursive functions on a fuel
  counter.  Running out of fuel is a separate result (`Run.fuel_out`) that still
  carries the trace performed so far.
* `assert` is the C macro: with `NDEBUG` it expands to nothing, without it a
  failed assertion aborts the process.  The flag is the parameter `ndebug`.
* `od_log` and `od_error` only write to the log and are left out.

The file has the definitions first (the embedding, the vocabulary for reading
traces, a scripted environment and concrete sessions), then the theorems.
-/

namespace Odyssey

/-! ## Data model -/

/-- Session outcome, `odrouter_status_t`. -/
inductive odrouter_status_t where
  | OD_RS_UNDEF
  | OD_RS_OK
  | OD_RS_EROUTE
  | OD_RS_EPOOL
  | OD_RS_ECLIENT_READ
  | OD_RS_ECLIENT_WRITE
  | OD_RS_ESERVER_READ
  | OD_RS_ESERVER_WRITE
  deriving DecidableEq, Repr

/-- Pooling mode of the configuration (`scheme.pooling_mode`), the four labels
of the first `switch` of `od_router`. -/
inductive odpooling_t where
  | OD_PUNDEF
  | OD_PSESSION
  | OD_PSTATEMENT
  | OD_PTRANSACTION
  deriving DecidableEq, Repr

/-- Route scheme, `odscheme_route_t`: the fields `od_router.c` reads.
`database` and `user` are the forced settings (`NULL` when not forced),
`server` stands for `scheme->server->name`. -/
structure odscheme_route_t where
  database : Option String
  user : Option String
  server : String
  deriving DecidableEq, Repr

/-- Configuration, `odscheme_t` (`pooler->od->scheme`): the fields
`od_router.c` reads. -/
structure odscheme_t where
  pooling_mode : odpooling_t
  routing_default : Option odscheme_route_t
  deriving DecidableEq, Repr

/-- Route identity, `odroute_id_t`. -/
structure odroute_id_t where
  database : String
  database_len : Nat
  user : String
  user_len : Nat
  deriving DecidableEq, Repr

/-- Startup packet of a client, `sobestartup_t`: the fields `od_router.c`
reads.  `od_route` asserts `database != NULL` and `user != NULL` on entry
(lines 39-40); the two fields are therefore plain strings. -/
structure sobestartup_t where
  is_cancel : Bool
  database : String
  database_len : Nat
  user : String
  user_len : Nat
  deriving DecidableEq, Repr

/-- Handle of a route object (`odroute_t*`, never `NULL`). -/
abbrev odroute_t := Nat

/-- Handle of a back-end server connection (`odserver_t*`, never `NULL`). -/
abbrev odserver_t := Nat

/-- Front-end client, `odclient_t`: the startup packet and the attached server
(`client->server`, `NULL` when no server is attached). -/
structure odclient_t where
  startup : sobestartup_t
  server : Option odserver_t
  deriving DecidableEq, Repr

/-- Transport handle given to `od_read` / `od_write`: `client->io` or
`server->io` of a server. -/
inductive odio_t where
  | client
  | server (s : odserver_t)
  deriving DecidableEq, Repr

/-- Content of the protocol stream (`sostream_t`) after a successful `od_read`:
one message.  `type` is the byte `*stream->s`, `body` the rest of the message. -/
structure sostream_t where
  type : Char
  body : List Nat
  deriving DecidableEq, Repr

/-- Calls made by the router, in program order. -/
inductive Event where
  | od_routepool_match (id : odroute_id_t) (result : Option odroute_t)
  | od_routepool_new (route_scheme : odscheme_route_t) (id : odroute_id_t)
      (result : Option odroute_t)
  | od_bepop (route : odroute_t) (result : Option odserver_t)
  | od_read (io : odio_t) (result : Option sostream_t)
  | od_write (io : odio_t) (stream : sostream_t) (ok : Bool)
  | od_feclose
  | od_bereset (server : Option odserver_t)
  | od_beclose (server : Option odserver_t)
  deriving DecidableEq, Repr

/-- Collaborators of the router defined in other translation units, as
functions on the outside state `W`.  A `none` / `false` result is the C result
`NULL` / `rc == -1`. -/
structure Extern (W : Type) where
  od_schemeroute_match : odscheme_t → String → Option odscheme_route_t
  od_routepool_match : W → odroute_id_t → Option odroute_t
  od_routepool_new : W → odscheme_route_t → odroute_id_t → Option odroute_t × W
  od_bepop : W → odroute_t → Option odserver_t × W
  od_read : W → odio_t → Option sostream_t × W
  od_write : W → odio_t → sostream_t → Bool × W
  od_festartup : W → Bool × sobestartup_t × W
  od_feauth : W → Bool × W
  od_feready : W → Bool × W

/-- Result of running code that loops: either it returned `a` after the calls
in `trace`, or the fuel ran out after the calls in `trace`. -/
inductive Run (α : Type) where
  | done (trace : List Event) (a : α)
  | fuel_out (trace : List Event)
  deriving DecidableEq, Repr

/-- Prepend the calls `es`, made before the run `r` started. -/
def Run.emit {α : Type} (es : List Event) : Run α → Run α
  | .done tr a => .done (es ++ tr) a
  | .fuel_out tr => .fuel_out (es ++ tr)

/-- Trace of a run, returned or not. -/
def Run.trace {α : Type} : Run α → List Event
  | .done tr _ => tr
  | .fuel_out tr => tr

/-- How `od_router` ended: it returned, or a failed `assert` aborted it. -/
inductive Exit where
  | returned
  | assert_failed
  deriving DecidableEq, Repr

/-- C `strlen`: number of bytes before the terminating NUL. -/
def strlen (s : String) : Nat := s.utf8ByteSize

/-! ## `od_route` (lines 36-80) -/

/-- Lines 43-51 of `od_route`: the scheme matched for the requested database,
else the default route, else `NULL`. -/
def od_route_scheme {W : Type} (ext : Extern W) (scheme : odscheme_t)
    (startup : sobestartup_t) : Option odscheme_route_t :=
  match ext.od_schemeroute_match scheme startup.database with
  | some route_scheme => some route_scheme
  | none => scheme.routing_default

/-- Lines 52-67 of `od_route`: the route identity, the client's settings
overwritten by the ones the route forces. -/
def od_route_id (route_scheme : odscheme_route_t) (startup : sobestartup_t) :
    odroute_id_t :=
  let id : odroute_id_t :=
    { database := startup.database
      database_len := startup.database_len
      user := startup.user
      user_len := startup.user_len }
  let id : odroute_id_t :=
    match route_scheme.database with
    | some database => { id with database := database, database_len := strlen database + 1 }
    | none => id
  let id : odroute_id_t :=
    match route_scheme.user with
    | some user => { id with user := user, user_len := strlen user + 1 }
    | none => id
  id

/-- Function `od_route`: the calls made, the route (`NULL` on failure) and the
outside state afterwards. -/
def od_route {W : Type} (ext : Extern W) (scheme : odscheme_t) (w : W)
    (startup : sobestartup_t) : List Event × Option odroute_t × W :=
  match od_route_scheme ext scheme startup with
  | none => ([], none, w)
  | some route_scheme =>
    let id := od_route_id route_scheme startup
    match ext.od_routepool_match w id with
    | some route => ([Event.od_routepool_match id (some route)], some route, w)
    | none =>
      match ext.od_routepool_new w route_scheme id with
      | (none, w1) =>
        ([Event.od_routepool_match id none, Event.od_routepool_new route_scheme id none],
          none, w1)
      | (some route, w1) =>
        ([Event.od_routepool_match id none,
          Event.od_routepool_new route_scheme id (some route)], some route, w1)

/-! ## `od_router_session` (lines 82-147) -/

/-- Inner loop `while (1)` of `od_router_session` (lines 126-142), server to
client.  The result `none` is the `break` of line 141, `some status` a
`return status`. -/
def od_router_session_feed {W : Type} (ext : Extern W) (server : odserver_t) :
    Nat → W → Run (Option odrouter_status_t × W)
  | 0, _ => Run.fuel_out []
  | fuel + 1, w =>
    match ext.od_read w (odio_t.server server) with
    | (none, w1) =>
      Run.done [Event.od_read (odio_t.server server) none]
        (some odrouter_status_t.OD_RS_ESERVER_READ, w1)
    | (some stream, w1) =>
      let type := stream.type
      match ext.od_write w1 odio_t.client stream with
      | (false, w2) =>
        Run.done [Event.od_read (odio_t.server server) (some stream),
          Event.od_write odio_t.client stream false]
          (some odrouter_status_t.OD_RS_ECLIENT_WRITE, w2)
      | (true, w2) =>
        if type = 'Z' then
          Run.done [Event.od_read (odio_t.server server) (some stream),
            Event.od_write odio_t.client stream true] (none, w2)
        else
          Run.emit [Event.od_read (odio_t.server server) (some stream),
            Event.od_write odio_t.client stream true]
            (od_router_session_feed ext server fuel w2)

/-- Outer loop `for (;;)` of `od_router_session` (lines 107-143), client to
server and back.  The `return OD_RS_UNDEF` after the loop (line 146) cannot be
reached: the loop has no `break` of its own. -/
def od_router_session_loop {W : Type} (ext : Extern W) (server : odserver_t) :
    Nat → W → Run (odrouter_status_t × W)
  | 0, _ => Run.fuel_out []
  | fuel + 1, w =>
    match ext.od_read w odio_t.client with
    | (none, w1) =>
      Run.done [Event.od_read odio_t.client none] (odrouter_status_t.OD_RS_ECLIENT_READ, w1)
    | (some stream, w1) =>
      let type := stream.type
      if type = 'X' then
        Run.done [Event.od_read odio_t.client (some stream)] (odrouter_status_t.OD_RS_OK, w1)
      else
        match ext.od_write w1 (odio_t.server server) stream with
        | (false, w2) =>
          Run.done [Event.od_read odio_t.client (some stream),
            Event.od_write (odio_t.server server) stream false]
            (odrouter_status_t.OD_RS_ESERVER_WRITE, w2)
        | (true, w2) =>
          Run.emit [Event.od_read odio_t.client (some stream),
            Event.od_write (odio_t.server server) stream true]
            (match od_router_session_feed ext server fuel w2 with
              | Run.fuel_out tr => Run.fuel_out tr
              | Run.done tr (some status, w3) => Run.done tr (status, w3)
              | Run.done tr (none, w3) =>
                Run.emit tr (od_router_session_loop ext server fuel w3))

/-- Function `od_router_session`: the outcome, the client (with the leased
server attached, line 99) and the outside state afterwards. -/
def od_router_session {W : Type} (ext : Extern W) (fuel : Nat) (scheme : odscheme_t)
    (w : W) (client : odclient_t) : Run (odrouter_status_t × odclient_t × W) :=
  match od_route ext scheme w client.startup with
  | (tr, none, w1) => Run.done tr (odrouter_status_t.OD_RS_EROUTE, client, w1)
  | (tr, some route, w1) =>
    match ext.od_bepop w1 route with
    | (none, w2) =>
      Run.done (tr ++ [Event.od_bepop route none]) (odrouter_status_t.OD_RS_EPOOL, client, w2)
    | (some server, w2) =>
      let client : odclient_t := { client with server := some server }
      Run.emit (tr ++ [Event.od_bepop route (some server)])
        (match od_router_session_loop ext server fuel w2 with
          | Run.fuel_out tr1 => Run.fuel_out tr1
          | Run.done tr1 (status, w3) => Run.done tr1 (status, client, w3))

/-! ## `od_router` (lines 149-221) -/

/-- Second `switch` of `od_router` (lines 194-220): the cleanup chosen by the
session outcome. -/
def od_router_cleanup (ndebug : Bool) (status : odrouter_status_t) (client : odclient_t) :
    List Event × Exit :=
  let server := client.server
  match status with
  | odrouter_status_t.OD_RS_EROUTE
  | odrouter_status_t.OD_RS_EPOOL =>
    if !ndebug && client.server.isSome then ([], Exit.assert_failed)
    else ([Event.od_feclose], Exit.returned)
  | odrouter_status_t.OD_RS_OK
  | odrouter_status_t.OD_RS_ECLIENT_READ
  | odrouter_status_t.OD_RS_ECLIENT_WRITE =>
    ([Event.od_feclose, Event.od_bereset server], Exit.returned)
  | odrouter_status_t.OD_RS_ESERVER_READ
  | odrouter_status_t.OD_RS_ESERVER_WRITE =>
    ([Event.od_feclose, Event.od_beclose server], Exit.returned)
  | odrouter_status_t.OD_RS_UNDEF =>
    if ndebug then ([], Exit.returned) else ([], Exit.assert_failed)

/-- Lines 181-220 of `od_router`: what a run does once startup, auth and the
ready notification have passed; the pooler method, then the cleanup. -/
def od_router_execute {W : Type} (ndebug : Bool) (ext : Extern W) (fuel : Nat)
    (scheme : odscheme_t) (w : W) (client : odclient_t) : Run Exit :=
  match scheme.pooling_mode with
  | odpooling_t.OD_PSESSION =>
    match od_router_session ext fuel scheme w client with
    | Run.fuel_out tr => Run.fuel_out tr
    | Run.done tr (status, client1, _) =>
      Run.done (tr ++ (od_router_cleanup ndebug status client1).1)
        (od_router_cleanup ndebug status client1).2
  | odpooling_t.OD_PTRANSACTION
  | odpooling_t.OD_PSTATEMENT
  | odpooling_t.OD_PUNDEF =>
    Run.done (od_router_cleanup ndebug odrouter_status_t.OD_RS_UNDEF client).1
      (od_router_cleanup ndebug odrouter_status_t.OD_RS_UNDEF client).2

/-- Whether the call is a protocol read or write. -/
def Event.is_transfer : Event → Bool
  | Event.od_read _ _ => true
  | Event.od_write _ _ _ => true
  | _ => false

/-- Whether the call ends the lease of a server: `od_bereset` or `od_beclose`. -/
def Event.is_release : Event → Bool
  | Event.od_bereset _ => true
  | Event.od_beclose _ => true
  | _ => false

/-- Whether the call is `od_feclose`. -/
def Event.is_feclose : Event → Bool
  | Event.od_feclose => true
  | _ => false

/-- Whether the call is `od_bepop`. -/
def Event.is_bepop : Event → Bool
  | Event.od_bepop _ _ => true
  | _ => false

/-- Whether the call is `od_routepool_new`. -/
def Event.is_routepool_new : Event → Bool
  | Event.od_routepool_new _ _ _ => true
  | _ => false

/-- The terminal events of a session and the outcome each one gives, as the
design document lists them: a failed read from the client, a failed write to
the server, a failed read from the server, a failed write to the client, and a
message read from the client whose type tag is `'X'`.  Every other call is not
terminal. -/
def terminal_event : Event → Option odrouter_status_t
  | Event.od_read odio_t.client none => some odrouter_status_t.OD_RS_ECLIENT_READ
  | Event.od_read odio_t.client (some stream) =>
    if stream.type = 'X' then some odrouter_status_t.OD_RS_OK else none
  | Event.od_write (odio_t.server _) _ false => some odrouter_status_t.OD_RS_ESERVER_WRITE
  | Event.od_read (odio_t.server _) none => some odrouter_status_t.OD_RS_ESERVER_READ
  | Event.od_write odio_t.client _ false => some odrouter_status_t.OD_RS_ECLIENT_WRITE
  | _ => none

/-- The message of a successful read from the client. -/
def Event.client_message : Event → Option sostream_t
  | Event.od_read odio_t.client (some stream) => some stream
  | _ => none

/-- The last message successfully read from the client in a trace. -/
def last_client_message (tr : List Event) : Option sostream_t :=
  (tr.filterMap Event.client_message).getLast?

/-- The message of a successful write to a server. -/
def Event.server_written : Event → Option sostream_t
  | Event.od_write (odio_t.server _) stream true => some stream
  | _ => none

/-- The message of a successful write to the client. -/
def Event.client_written : Event → Option sostream_t
  | Event.od_write odio_t.client stream true => some stream
  | _ => none

/-- Whether the call is a route pool call: `od_routepool_match` or
`od_routepool_new`. -/
def Event.is_routing : Event → Bool
  | Event.od_routepool_match _ _ => true
  | Event.od_routepool_new _ _ _ => true
  | _ => false

/-- A trace without terminal event. -/
def quiet (tr : List Event) : Prop := ∀ e ∈ tr, terminal_event e = none

instance quiet_decidable (tr : List Event) : Decidable (quiet tr) := by
  unfold quiet; infer_instance

/-! ## A scripted environment -/

/-- Fixed part of a scripted environment: the routing table of the
configuration, what startup, auth and the ready notification answer, whether a
route can be allocated, and the server `od_bepop` hands out (`none`: no server
can be had). -/
structure Scenario where
  routing : List (String × odscheme_route_t)
  startup_ok : Bool
  startup : sobestartup_t
  auth_ok : Bool
  ready_ok : Bool
  alloc_ok : Bool
  bepop : Option odserver_t
  deriving Repr

/-- Outside state of a scripted environment: the messages the client and the
server are still going to send, and the identities of the routes created so
far (the handle of a route is its position). -/
structure Script where
  client_in : List sostream_t
  server_in : List sostream_t
  route_pool : List odroute_id_t
  deriving DecidableEq, Repr

/-- Position of the first route of the pool whose identity is `id`. -/
def routepool_find (id : odroute_id_t) : List odroute_id_t → Option odroute_t
  | [] => none
  | x :: rest => if x = id then some 0 else (routepool_find id rest).map (· + 1)

/-- Modelled from the spec: the collaborators of the router, none of which is
among the sources (`od_scheme`, `od_route_pool`, `od_be`, `od_fe`, `od_io`),
played from a script.  Route matching is a lookup by database name; the route
pool is a registry keyed by exact route identity that finds every route it
created; a read delivers the next scripted message of the peer and fails when
the peer has nothing more to send; every write succeeds. -/
def script_ext (sc : Scenario) : Extern Script where
  od_schemeroute_match := fun _ database => sc.routing.lookup database
  od_routepool_match := fun w id => routepool_find id w.route_pool
  od_routepool_new := fun w _ id =>
    if sc.alloc_ok then
      (some w.route_pool.length, { w with route_pool := w.route_pool ++ [id] })
    else (none, w)
  od_bepop := fun w _ => (sc.bepop, w)
  od_read := fun w io =>
    match io with
    | odio_t.client =>
      match w.client_in with
      | [] => (none, w)
      | stream :: rest => (some stream, { w with client_in := rest })
    | odio_t.server _ =>
      match w.server_in with
      | [] => (none, w)
      | stream :: rest => (some stream, { w with server_in := rest })
  od_write := fun w _ _ => (true, w)
  od_festartup := fun w => (sc.startup_ok, sc.startup, w)
  od_feauth := fun w => (sc.auth_ok, w)
  od_feready := fun w => (sc.ready_ok, w)

/-- A burst of server messages answering one request: at least one message,
the last one tagged `'Z'` and no other. -/
def ready_burst : List sostream_t → Bool
  | [] => false
  | [stream] => decide (stream.type = 'Z')
  | stream :: rest => decide (stream.type ≠ 'Z') && ready_burst rest

/-- The calls that forward the burst `ms` of a server to the client, one
message after the other. -/
def reply_trace (server : odserver_t) : List sostream_t → List Event
  | [] => []
  | stream :: rest =>
    Event.od_read (odio_t.server server) (some stream) ::
      Event.od_write odio_t.client stream true :: reply_trace server rest

/-- The calls of a scripted session, exchange after exchange: the request is
read and written to the server, then its burst is forwarded to the client, and
only then the next request is read. -/
def session_trace (server : odserver_t) : List (sostream_t × List sostream_t) → List Event
  | [] => []
  | exchange :: rest =>
    Event.od_read odio_t.client (some exchange.1) ::
      Event.od_write (odio_t.server server) exchange.1 true ::
        (reply_trace server exchange.2 ++ session_trace server rest)

/-- All server messages of a scripted session, in the order produced. -/
def all_replies : List (sostream_t × List sostream_t) → List sostream_t
  | [] => []
  | exchange :: rest => exchange.2 ++ all_replies rest

/-- Outcome of a session whose last client read gives the terminate message
`fin` (`none`: the read fails, the client has gone away). -/
def closing_status : Option sostream_t → odrouter_status_t
  | none => odrouter_status_t.OD_RS_ECLIENT_READ
  | some _ => odrouter_status_t.OD_RS_OK

/-! ## Concrete sessions -/

/-- A request of the client, tagged `'Q'`. -/
def msg_query : sostream_t := { type := 'Q', body := [1, 2, 3] }

/-- A row of a server answer, tagged `'D'`. -/
def msg_data : sostream_t := { type := 'D', body := [4] }

/-- The ready message of the server, tagged `'Z'`. -/
def msg_ready : sostream_t := { type := 'Z', body := [73] }

/-- The terminate message of the client, tagged `'X'`. -/
def msg_terminate : sostream_t := { type := 'X', body := [] }

/-- A route scheme that forces the database `"prod"` and leaves the user. -/
def demo_route : odscheme_route_t := { database := some "prod", user := none, server := "pg1" }

/-- Startup packet of a client asking for database `"app"` as user `"bob"`. -/
def demo_startup : sobestartup_t :=
  { is_cancel := false, database := "app", database_len := 4, user := "bob", user_len := 4 }

/-- Scripted environment with a route for `"app"`, in which startup, auth and
the ready notification pass and `od_bepop` hands out server `7`. -/
def demo_scenario : Scenario :=
  { routing := [("app", demo_route)]
    startup_ok := true
    startup := demo_startup
    auth_ok := true
    ready_ok := true
    alloc_ok := true
    bepop := some 7 }

/-- Configuration in the given pooling mode, without default route. -/
def demo_scheme (mode : odpooling_t) : odscheme_t :=
  { pooling_mode := mode, routing_default := none }

/-- A client to which no server is attached. -/
def demo_client : odclient_t := { startup := demo_startup, server := none }

/-- Two exchanges: a request answered by two messages, a request answered by
one. -/
def demo_exchanges : List (sostream_t × List sostream_t) :=
  [(msg_query, [msg_data, msg_ready]), (msg_query, [msg_ready])]

/-- Scripted environment in which no route can be allocated:
`od_routepool_new` returns `NULL`. -/
def demo_scenario_noalloc : Scenario := { demo_scenario with alloc_ok := false }

/-- Startup packet of a client asking for database `"other"`, for which the
scripted configuration declares no route. -/
def demo_startup_other : sobestartup_t :=
  { is_cancel := false, database := "other", database_len := 6, user := "bob", user_len := 4 }

/-- Calls of the session of a client whose server goes away after forwarding
one message of its answer. -/
def demo_close_trace : List Event :=
  [Event.od_routepool_match (od_route_id demo_route demo_startup) none,
    Event.od_routepool_new demo_route (od_route_id demo_route demo_startup) (some 0),
    Event.od_bepop 0 (some 7),
    Event.od_read odio_t.client (some msg_query),
    Event.od_write (odio_t.server 7) msg_query true,
    Event.od_read (odio_t.server 7) (some msg_data),
    Event.od_write odio_t.client msg_data true,
    Event.od_read (odio_t.server 7) none]

/-! ## Sequences of route resolutions -/

/-- Whether the call is an `od_routepool_new` that created a route for the
identity `id`. -/
def Event.created (id : odroute_id_t) : Event → Bool
  | Event.od_routepool_new _ id1 (some _) => decide (id1 = id)
  | _ => false

/-- Whether the call is an `od_routepool_new` that returned `NULL`. -/
def Event.alloc_failed : Event → Bool
  | Event.od_routepool_new _ _ none => true
  | _ => false

/-- Route resolutions for the startup packets `startups`, one `od_route` call
after the other on the same pooler: all calls made, and the outside state
afterwards. -/
def od_route_all {W : Type} (ext : Extern W) (scheme : odscheme_t) :
    W → List sobestartup_t → List Event × W
  | w, [] => ([], w)
  | w, startup :: rest =>
    ((od_route ext scheme w startup).1 ++
        (od_route_all ext scheme (od_route ext scheme w startup).2.2 rest).1,
      (od_route_all ext scheme (od_route ext scheme w startup).2.2 rest).2)

/-! # Theorems -/

/-! ## Basic facts about the loops -/

theorem feed_transfer {W : Type} (ext : Extern W) (server : odserver_t) (fuel : Nat) :
    ∀ w : W, ∀ e ∈ (od_router_session_feed ext server fuel w).trace, e.is_transfer = true := by
  induction fuel with
  | zero => intro w e he; simp [od_router_session_feed, Run.trace] at he
  | succ n ih =>
    intro w e he
    rcases hr : ext.od_read w (odio_t.server server) with ⟨_ | stream, w1⟩
    · simp [od_router_session_feed, hr, Run.trace] at he
      subst he; rfl
    · rcases hw : ext.od_write w1 odio_t.client stream with ⟨_ | _, w2⟩
      · simp [od_router_session_feed, hr, hw, Run.trace] at he
        rcases he with he | he <;> subst he <;> rfl
      · by_cases hz : stream.type = 'Z'
        · simp [od_router_session_feed, hr, hw, hz, Run.trace] at he
          rcases he with he | he <;> subst he <;> rfl
        · have ih1 := ih w2
          simp only [od_router_session_feed, hr, hw, hz, if_false] at he
          cases hf : od_router_session_feed ext server n w2 with
          | done tr a =>
            rw [hf] at he ih1
            simp [Run.emit, Run.trace] at he ih1
            rcases he with he | he | he
            · subst he; rfl
            · subst he; rfl
            · exact ih1 e he
          | fuel_out tr =>
            rw [hf] at he ih1
            simp [Run.emit, Run.trace] at he ih1
            rcases he with he | he | he
            · subst he; rfl
            · subst he; rfl
            · exact ih1 e he

theorem quiet_nil : quiet [] := by
  intro e he; cases he

theorem quiet_append {a b : List Event} (ha : quiet a) (hb : quiet b) : quiet (a ++ b) := by
  intro e he
  rcases List.mem_append.1 he with h | h
  · exact ha e h
  · exact hb e h

theorem quiet_server_pair (server : odserver_t) (stream : sostream_t) :
    quiet [Event.od_read (odio_t.server server) (some stream),
      Event.od_write odio_t.client stream true] := by
  intro e he
  simp at he
  rcases he with he | he <;> subst he <;> rfl

theorem quiet_client_pair (server : odserver_t) (stream : sostream_t)
    (hx : ¬ stream.type = 'X') :
    quiet [Event.od_read odio_t.client (some stream),
      Event.od_write (odio_t.server server) stream true] := by
  intro e he
  simp at he
  rcases he with he | he <;> subst he
  · simp [terminal_event, hx]
  · rfl

theorem feed_spec {W : Type} (ext : Extern W) (server : odserver_t) (fuel : Nat) :
    ∀ w : W,
      (∀ tr st w1, od_router_session_feed ext server fuel w = Run.done tr (some st, w1) →
        ∃ pre last, tr = pre ++ [last] ∧ quiet pre ∧ terminal_event last = some st) ∧
      (∀ tr w1, od_router_session_feed ext server fuel w = Run.done tr (none, w1) → quiet tr) ∧
      (∀ tr, od_router_session_feed ext server fuel w = Run.fuel_out tr →
        quiet tr ∧ 2 * fuel ≤ tr.length) := by
  induction fuel with
  | zero =>
    intro w
    refine ⟨?_, ?_, ?_⟩
    · intro tr st w1 h; simp [od_router_session_feed] at h
    · intro tr w1 h; simp [od_router_session_feed] at h
    · intro tr h
      simp [od_router_session_feed] at h
      subst h; exact ⟨quiet_nil, by simp⟩
  | succ n ih =>
    intro w
    rcases hr : ext.od_read w (odio_t.server server) with ⟨_ | stream, w1⟩
    · refine ⟨?_, ?_, ?_⟩
      · intro tr st w1 h
        simp [od_router_session_feed, hr] at h
        obtain ⟨h1, h2, _⟩ := h
        subst h1; subst h2
        exact ⟨[], _, rfl, quiet_nil, rfl⟩
      · intro tr w1 h; simp [od_router_session_feed, hr] at h
      · intro tr h; simp [od_router_session_feed, hr] at h
    · rcases hw : ext.od_write w1 odio_t.client stream with ⟨_ | _, w2⟩
      · refine ⟨?_, ?_, ?_⟩
        · intro tr st w1 h
          simp [od_router_session_feed, hr, hw] at h
          obtain ⟨h1, h2, _⟩ := h
          subst h1; subst h2
          refine ⟨[Event.od_read (odio_t.server server) (some stream)], _, rfl, ?_, rfl⟩
          intro e he
          simp at he
          subst he; rfl
        · intro tr w1 h; simp [od_router_session_feed, hr, hw] at h
        · intro tr h; simp [od_router_session_feed, hr, hw] at h
      · by_cases hz : stream.type = 'Z'
        · refine ⟨?_, ?_, ?_⟩
          · intro tr st w1 h; simp [od_router_session_feed, hr, hw, hz] at h
          · intro tr w1 h
            simp [od_router_session_feed, hr, hw, hz] at h
            obtain ⟨h1, _⟩ := h
            subst h1
            exact quiet_server_pair server stream
          · intro tr h; simp [od_router_session_feed, hr, hw, hz] at h
        · obtain ⟨ih1, ih2, ih3⟩ := ih w2
          have hq := quiet_server_pair server stream
          cases hf : od_router_session_feed ext server n w2 with
          | done tr0 a =>
            obtain ⟨r, w3⟩ := a
            refine ⟨?_, ?_, ?_⟩
            · intro tr st w4 h
              simp [od_router_session_feed, hr, hw, hz, hf, Run.emit] at h
              obtain ⟨h1, h2, _⟩ := h
              subst h2
              obtain ⟨pre, last, hp, hpq, hl⟩ := ih1 tr0 st w3 hf
              refine ⟨_ ++ pre, last, ?_, quiet_append hq hpq, hl⟩
              rw [← h1, hp]; simp
            · intro tr w4 h
              simp [od_router_session_feed, hr, hw, hz, hf, Run.emit] at h
              obtain ⟨h1, h2, _⟩ := h
              subst h2
              have := quiet_append hq (ih2 tr0 w3 hf)
              rw [← h1]; simpa using this
            · intro tr h
              simp [od_router_session_feed, hr, hw, hz, hf, Run.emit] at h
          | fuel_out tr0 =>
            refine ⟨?_, ?_, ?_⟩
            · intro tr st w4 h
              simp [od_router_session_feed, hr, hw, hz, hf, Run.emit] at h
            · intro tr w4 h
              simp [od_router_session_feed, hr, hw, hz, hf, Run.emit] at h
            · intro tr h
              simp [od_router_session_feed, hr, hw, hz, hf, Run.emit] at h
              obtain ⟨hq0, hl0⟩ := ih3 tr0 hf
              subst h
              refine ⟨by simpa using quiet_append hq hq0, ?_⟩
              simp; omega

theorem loop_spec {W : Type} (ext : Extern W) (server : odserver_t) (fuel : Nat) :
    ∀ w : W,
      (∀ tr st w1, od_router_session_loop ext server fuel w = Run.done tr (st, w1) →
        ∃ pre last, tr = pre ++ [last] ∧ quiet pre ∧ terminal_event last = some st) ∧
      (∀ tr, od_router_session_loop ext server fuel w = Run.fuel_out tr →
        quiet tr ∧ 2 * fuel ≤ tr.length) := by
  induction fuel with
  | zero =>
    intro w
    refine ⟨?_, ?_⟩
    · intro tr st w1 h; simp [od_router_session_loop] at h
    · intro tr h
      simp [od_router_session_loop] at h
      subst h; exact ⟨quiet_nil, by simp⟩
  | succ n ih =>
    intro w
    rcases hr : ext.od_read w odio_t.client with ⟨_ | stream, w1⟩
    · refine ⟨?_, ?_⟩
      · intro tr st w1 h
        simp [od_router_session_loop, hr] at h
        obtain ⟨h1, h2, _⟩ := h
        subst h1; subst h2
        exact ⟨[], _, rfl, quiet_nil, rfl⟩
      · intro tr h; simp [od_router_session_loop, hr] at h
    · by_cases hx : stream.type = 'X'
      · refine ⟨?_, ?_⟩
        · intro tr st w1 h
          simp [od_router_session_loop, hr, hx] at h
          obtain ⟨h1, h2, _⟩ := h
          subst h1; subst h2
          exact ⟨[], _, rfl, quiet_nil, by simp [terminal_event, hx]⟩
        · intro tr h; simp [od_router_session_loop, hr, hx] at h
      · rcases hw : ext.od_write w1 (odio_t.server server) stream with ⟨_ | _, w2⟩
        · refine ⟨?_, ?_⟩
          · intro tr st w1 h
            simp [od_router_session_loop, hr, hx, hw] at h
            obtain ⟨h1, h2, _⟩ := h
            subst h1; subst h2
            refine ⟨[Event.od_read odio_t.client (some stream)], _, rfl, ?_, rfl⟩
            intro e he
            simp at he
            subst he; simp [terminal_event, hx]
          · intro tr h; simp [od_router_session_loop, hr, hx, hw] at h
        · have hq := quiet_client_pair server stream hx
          obtain ⟨f1, f2, f3⟩ := feed_spec ext server n w2
          cases hf : od_router_session_feed ext server n w2 with
          | fuel_out tr0 =>
            refine ⟨?_, ?_⟩
            · intro tr st w4 h
              simp [od_router_session_loop, hr, hx, hw, hf, Run.emit] at h
            · intro tr h
              simp [od_router_session_loop, hr, hx, hw, hf, Run.emit] at h
              obtain ⟨hq0, hl0⟩ := f3 tr0 hf
              subst h
              refine ⟨by simpa using quiet_append hq hq0, ?_⟩
              simp; omega
          | done tr0 a =>
            obtain ⟨r, w3⟩ := a
            cases r with
            | some st0 =>
              refine ⟨?_, ?_⟩
              · intro tr st w4 h
                simp [od_router_session_loop, hr, hx, hw, hf, Run.emit] at h
                obtain ⟨h1, h2, _⟩ := h
                subst h2
                obtain ⟨pre, last, hp, hpq, hl⟩ := f1 tr0 st0 w3 hf
                refine ⟨_ ++ pre, last, ?_, quiet_append hq hpq, hl⟩
                rw [← h1, hp]; simp
              · intro tr h
                simp [od_router_session_loop, hr, hx, hw, hf, Run.emit] at h
            | none =>
              have hq0 := f2 tr0 w3 hf
              obtain ⟨ih1, ih2⟩ := ih w3
              cases hl : od_router_session_loop ext server n w3 with
              | done tr1 a1 =>
                obtain ⟨st1, w5⟩ := a1
                refine ⟨?_, ?_⟩
                · intro tr st w4 h
                  simp [od_router_session_loop, hr, hx, hw, hf, hl, Run.emit] at h
                  obtain ⟨h1, h2, _⟩ := h
                  subst h2
                  obtain ⟨pre, last, hp, hpq, hlast⟩ := ih1 tr1 st1 w5 hl
                  refine ⟨_ ++ (tr0 ++ pre), last, ?_, quiet_append hq (quiet_append hq0 hpq),
                    hlast⟩
                  rw [← h1, hp]; simp
                · intro tr h
                  simp [od_router_session_loop, hr, hx, hw, hf, hl, Run.emit] at h
              | fuel_out tr1 =>
                refine ⟨?_, ?_⟩
                · intro tr st w4 h
                  simp [od_router_session_loop, hr, hx, hw, hf, hl, Run.emit] at h
                · intro tr h
                  simp [od_router_session_loop, hr, hx, hw, hf, hl, Run.emit] at h
                  obtain ⟨hq1, hl1⟩ := ih2 tr1 hl
                  subst h
                  refine ⟨by simpa using quiet_append hq (quiet_append hq0 hq1), ?_⟩
                  simp; omega

theorem loop_transfer {W : Type} (ext : Extern W) (server : odserver_t) (fuel : Nat) :
    ∀ w : W, ∀ e ∈ (od_router_session_loop ext server fuel w).trace, e.is_transfer = true := by
  induction fuel with
  | zero => intro w e he; simp [od_router_session_loop, Run.trace] at he
  | succ n ih =>
    intro w e he
    rcases hr : ext.od_read w odio_t.client with ⟨_ | stream, w1⟩
    · simp [od_router_session_loop, hr, Run.trace] at he
      subst he; rfl
    · by_cases hx : stream.type = 'X'
      · simp [od_router_session_loop, hr, hx, Run.trace] at he
        subst he; rfl
      · rcases hw : ext.od_write w1 (odio_t.server server) stream with ⟨_ | _, w2⟩
        · simp [od_router_session_loop, hr, hx, hw, Run.trace] at he
          rcases he with he | he <;> subst he <;> rfl
        · have hfeed := feed_transfer ext server n w2
          cases hf : od_router_session_feed ext server n w2 with
          | fuel_out tr0 =>
            rw [hf] at hfeed
            simp [od_router_session_loop, hr, hx, hw, hf, Run.emit, Run.trace] at he hfeed
            rcases he with he | he | he
            · subst he; rfl
            · subst he; rfl
            · exact hfeed e he
          | done tr0 a =>
            obtain ⟨r, w3⟩ := a
            rw [hf] at hfeed
            cases r with
            | some st0 =>
              simp [od_router_session_loop, hr, hx, hw, hf, Run.emit, Run.trace] at he hfeed
              rcases he with he | he | he
              · subst he; rfl
              · subst he; rfl
              · exact hfeed e he
            | none =>
              have ih1 := ih w3
              cases hl : od_router_session_loop ext server n w3 with
              | done tr1 a1 =>
                rw [hl] at ih1
                simp [od_router_session_loop, hr, hx, hw, hf, hl, Run.emit, Run.trace]
                  at he hfeed ih1
                rcases he with he | he | he | he
                · subst he; rfl
                · subst he; rfl
                · exact hfeed e he
                · exact ih1 e he
              | fuel_out tr1 =>
                rw [hl] at ih1
                simp [od_router_session_loop, hr, hx, hw, hf, hl, Run.emit, Run.trace]
                  at he hfeed ih1
                rcases he with he | he | he | he
                · subst he; rfl
                · subst he; rfl
                · exact hfeed e he
                · exact ih1 e he

/-! ## More fuel never changes a result -/

theorem feed_mono_succ {W : Type} (ext : Extern W) (server : odserver_t) (n : Nat) :
    ∀ (w : W) (tr : List Event) (a : Option odrouter_status_t × W),
      od_router_session_feed ext server n w = Run.done tr a →
      od_router_session_feed ext server (n + 1) w = Run.done tr a := by
  induction n with
  | zero => intro w tr a h; simp [od_router_session_feed] at h
  | succ n ih =>
    intro w tr a h
    rw [od_router_session_feed] at h ⊢
    rcases hr : ext.od_read w (odio_t.server server) with ⟨_ | stream, w1⟩
    · simp only [hr] at h ⊢; exact h
    · simp only [hr] at h ⊢
      rcases hw : ext.od_write w1 odio_t.client stream with ⟨_ | _, w2⟩
      · simp only [hw] at h ⊢; exact h
      · simp only [hw] at h ⊢
        by_cases hz : stream.type = 'Z'
        · simp only [hz, if_true] at h ⊢; exact h
        · simp only [hz, if_false] at h ⊢
          cases hf : od_router_session_feed ext server n w2 with
          | fuel_out tr0 => rw [hf] at h; simp [Run.emit] at h
          | done tr0 a0 => rw [hf] at h; rw [ih w2 tr0 a0 hf]; exact h

theorem feed_mono {W : Type} (ext : Extern W) (server : odserver_t) (n m : Nat) (hnm : n ≤ m)
    (w : W) (tr : List Event) (a : Option odrouter_status_t × W)
    (h : od_router_session_feed ext server n w = Run.done tr a) :
    od_router_session_feed ext server m w = Run.done tr a := by
  induction m with
  | zero =>
    have : n = 0 := by omega
    subst this; exact h
  | succ m ih =>
    by_cases hm : n ≤ m
    · exact feed_mono_succ ext server m w tr a (ih hm)
    · have : n = m + 1 := by omega
      subst this; exact h

theorem loop_mono_succ {W : Type} (ext : Extern W) (server : odserver_t) (n : Nat) :
    ∀ (w : W) (tr : List Event) (a : odrouter_status_t × W),
      od_router_session_loop ext server n w = Run.done tr a →
      od_router_session_loop ext server (n + 1) w = Run.done tr a := by
  induction n with
  | zero => intro w tr a h; simp [od_router_session_loop] at h
  | succ n ih =>
    intro w tr a h
    rw [od_router_session_loop] at h ⊢
    rcases hr : ext.od_read w odio_t.client with ⟨_ | stream, w1⟩
    · simp only [hr] at h ⊢; exact h
    · simp only [hr] at h ⊢
      by_cases hx : stream.type = 'X'
      · simp only [hx, if_true] at h ⊢; exact h
      · simp only [hx, if_false] at h ⊢
        rcases hw : ext.od_write w1 (odio_t.server server) stream with ⟨_ | _, w2⟩
        · simp only [hw] at h ⊢; exact h
        · simp only [hw] at h ⊢
          cases hf : od_router_session_feed ext server n w2 with
          | fuel_out tr0 => rw [hf] at h; simp [Run.emit] at h
          | done tr0 a0 =>
            rw [hf] at h
            rw [feed_mono_succ ext server n w2 tr0 a0 hf]
            obtain ⟨r, w3⟩ := a0
            cases r with
            | some st0 => exact h
            | none =>
              simp only at h ⊢
              cases hl : od_router_session_loop ext server n w3 with
              | fuel_out tr1 => rw [hl] at h; simp [Run.emit] at h
              | done tr1 a1 => rw [hl] at h; rw [ih w3 tr1 a1 hl]; exact h

theorem loop_mono {W : Type} (ext : Extern W) (server : odserver_t) (n m : Nat) (hnm : n ≤ m)
    (w : W) (tr : List Event) (a : odrouter_status_t × W)
    (h : od_router_session_loop ext server n w = Run.done tr a) :
    od_router_session_loop ext server m w = Run.done tr a := by
  induction m with
  | zero =>
    have : n = 0 := by omega
    subst this; exact h
  | succ m ih =>
    by_cases hm : n ≤ m
    · exact loop_mono_succ ext server m w tr a (ih hm)
    · have : n = m + 1 := by omega
      subst this; exact h

/-! ## Scripted sessions -/

theorem feed_script (sc : Scenario) (server : odserver_t) :
    ∀ (ms : List sostream_t), ready_burst ms = true →
      ∀ (cin extra : List sostream_t) (pool : List odroute_id_t),
        od_router_session_feed (script_ext sc) server ms.length ⟨cin, ms ++ extra, pool⟩ =
          Run.done (reply_trace server ms) (none, ⟨cin, extra, pool⟩)
  | [], h, _, _, _ => by simp [ready_burst] at h
  | [m], h, cin, extra, pool => by
    simp [ready_burst] at h
    simp [od_router_session_feed, script_ext, h, reply_trace]
  | m :: m1 :: rest, h, cin, extra, pool => by
    simp [ready_burst] at h
    have ih := feed_script sc server (m1 :: rest) h.2 cin extra pool
    have hlen : (m :: m1 :: rest).length = (m1 :: rest).length + 1 := rfl
    rw [hlen, od_router_session_feed]
    simp only [script_ext, List.cons_append]
    simp only [script_ext, List.cons_append] at ih
    simp only [h.1, if_false, ih, Run.emit, reply_trace, List.cons_append, List.nil_append]

theorem loop_script (sc : Scenario) (server : odserver_t) (fin : Option sostream_t)
    (hfin : ∀ m ∈ fin, m.type = 'X') (extra : List sostream_t) (pool : List odroute_id_t) :
    ∀ (exs : List (sostream_t × List sostream_t)),
      (∀ e ∈ exs, e.1.type ≠ 'X' ∧ ready_burst e.2 = true) →
      ∃ fuel, ∀ m, fuel ≤ m →
        od_router_session_loop (script_ext sc) server m
            ⟨exs.map Prod.fst ++ fin.toList, all_replies exs ++ extra, pool⟩ =
          Run.done (session_trace server exs ++ [Event.od_read odio_t.client fin])
            (closing_status fin, ⟨[], extra, pool⟩)
  | [], _ => by
    refine ⟨1, fun m hm => ?_⟩
    apply loop_mono _ _ 1 m hm
    cases fin with
    | none => simp [od_router_session_loop, script_ext, all_replies, session_trace, closing_status]
    | some x =>
      have hx : x.type = 'X' := hfin x rfl
      simp [od_router_session_loop, script_ext, all_replies, session_trace, closing_status, hx]
  | e :: rest, h => by
    have he := h e (List.mem_cons_self _ _)
    obtain ⟨fuel, ih⟩ := loop_script sc server fin hfin extra pool rest
      (fun e1 h1 => h e1 (List.mem_cons_of_mem _ h1))
    refine ⟨max e.2.length fuel + 1, fun m hm => ?_⟩
    apply loop_mono _ _ (max e.2.length fuel + 1) m hm
    have hfeed := feed_mono _ _ _ (max e.2.length fuel) (le_max_left _ _) _ _ _
      (feed_script sc server e.2 he.2 (rest.map Prod.fst ++ fin.toList)
        (all_replies rest ++ extra) pool)
    have hloop := ih (max e.2.length fuel) (le_max_right _ _)
    rw [od_router_session_loop]
    simp only [script_ext, List.map_cons, List.cons_append, all_replies, List.append_assoc]
    simp only [script_ext] at hfeed hloop
    simp only [he.1, if_false, hfeed, hloop, Run.emit, session_trace, List.cons_append,
      List.nil_append, List.append_assoc]

/-! ## Facts about `od_route` and `od_router_session` -/

theorem route_trace_cases {W : Type} (ext : Extern W) (scheme : odscheme_t) (w : W)
    (startup : sobestartup_t) :
    (od_route_scheme ext scheme startup = none ∧ od_route ext scheme w startup = ([], none, w)) ∨
    (∃ route_scheme route, od_route_scheme ext scheme startup = some route_scheme ∧
      ext.od_routepool_match w (od_route_id route_scheme startup) = some route ∧
      od_route ext scheme w startup =
        ([Event.od_routepool_match (od_route_id route_scheme startup) (some route)],
          some route, w)) ∨
    (∃ route_scheme result w1, od_route_scheme ext scheme startup = some route_scheme ∧
      ext.od_routepool_match w (od_route_id route_scheme startup) = none ∧
      ext.od_routepool_new w route_scheme (od_route_id route_scheme startup) = (result, w1) ∧
      od_route ext scheme w startup =
        ([Event.od_routepool_match (od_route_id route_scheme startup) none,
          Event.od_routepool_new route_scheme (od_route_id route_scheme startup) result],
          result, w1)) := by
  cases hs : od_route_scheme ext scheme startup with
  | none => left; simp [od_route, hs]
  | some route_scheme =>
    right
    cases hm : ext.od_routepool_match w (od_route_id route_scheme startup) with
    | some route => left; exact ⟨route_scheme, route, rfl, hm, by simp [od_route, hs, hm]⟩
    | none =>
      right
      rcases hn : ext.od_routepool_new w route_scheme (od_route_id route_scheme startup)
        with ⟨_ | route, w1⟩
      · exact ⟨route_scheme, none, w1, rfl, hm, hn, by simp [od_route, hs, hm, hn]⟩
      · exact ⟨route_scheme, some route, w1, rfl, hm, hn, by simp [od_route, hs, hm, hn]⟩

theorem route_trace_routing {W : Type} (ext : Extern W) (scheme : odscheme_t) (w : W)
    (startup : sobestartup_t) :
    ∀ e ∈ (od_route ext scheme w startup).1, e.is_routing = true := by
  intro e he
  rcases route_trace_cases ext scheme w startup with ⟨_, h⟩ | ⟨_, _, _, _, h⟩ |
    ⟨_, _, _, _, _, _, h⟩
  · rw [h] at he; simp at he
  · rw [h] at he; simp at he; subst he; rfl
  · rw [h] at he; simp at he
    rcases he with he | he <;> subst he <;> rfl

theorem session_done {W : Type} (ext : Extern W) (fuel : Nat) (scheme : odscheme_t) (w : W)
    (client : odclient_t) (tr : List Event) (st : odrouter_status_t) (c1 : odclient_t) (w3 : W)
    (h : od_router_session ext fuel scheme w client = Run.done tr (st, c1, w3)) :
    (od_route ext scheme w client.startup = (tr, none, w3) ∧
      st = odrouter_status_t.OD_RS_EROUTE ∧ c1 = client) ∨
    (∃ tr0 route w1, od_route ext scheme w client.startup = (tr0, some route, w1) ∧
      ext.od_bepop w1 route = (none, w3) ∧ tr = tr0 ++ [Event.od_bepop route none] ∧
      st = odrouter_status_t.OD_RS_EPOOL ∧ c1 = client) ∨
    (∃ tr0 route w1 server w2 tr1,
      od_route ext scheme w client.startup = (tr0, some route, w1) ∧
      ext.od_bepop w1 route = (some server, w2) ∧
      od_router_session_loop ext server fuel w2 = Run.done tr1 (st, w3) ∧
      tr = tr0 ++ [Event.od_bepop route (some server)] ++ tr1 ∧
      c1 = { client with server := some server }) := by
  rcases hr : od_route ext scheme w client.startup with ⟨tr0, _ | route, w1⟩
  · left
    simp [od_router_session, hr] at h
    obtain ⟨h1, h2, h3, h4⟩ := h
    subst h1; subst h2; subst h3; subst h4
    exact ⟨rfl, rfl, rfl⟩
  · right
    rcases hp : ext.od_bepop w1 route with ⟨_ | server, w2⟩
    · left
      simp [od_router_session, hr, hp] at h
      obtain ⟨h1, h2, h3, h4⟩ := h
      subst h1; subst h2; subst h3; subst h4
      exact ⟨tr0, route, w1, rfl, hp, by simp, rfl, rfl⟩
    · right
      cases hl : od_router_session_loop ext server fuel w2 with
      | fuel_out tr1 => simp [od_router_session, hr, hp, hl, Run.emit] at h
      | done tr1 a =>
        obtain ⟨st1, w4⟩ := a
        simp [od_router_session, hr, hp, hl, Run.emit] at h
        obtain ⟨h1, h2, h3, h4⟩ := h
        subst h1; subst h2; subst h3; subst h4
        exact ⟨tr0, route, w1, server, w2, tr1, rfl, hp, hl, by simp, rfl⟩

theorem session_fuel_out {W : Type} (ext : Extern W) (fuel : Nat) (scheme : odscheme_t) (w : W)
    (client : odclient_t) (tr : List Event)
    (h : od_router_session ext fuel scheme w client = Run.fuel_out tr) :
    ∃ tr0 route w1 server w2 tr1,
      od_route ext scheme w client.startup = (tr0, some route, w1) ∧
      ext.od_bepop w1 route = (some server, w2) ∧
      od_router_session_loop ext server fuel w2 = Run.fuel_out tr1 ∧
      tr = tr0 ++ [Event.od_bepop route (some server)] ++ tr1 := by
  rcases hr : od_route ext scheme w client.startup with ⟨tr0, _ | route, w1⟩
  · simp [od_router_session, hr] at h
  · rcases hp : ext.od_bepop w1 route with ⟨_ | server, w2⟩
    · simp [od_router_session, hr, hp] at h
    · cases hl : od_router_session_loop ext server fuel w2 with
      | fuel_out tr1 =>
        simp [od_router_session, hr, hp, hl, Run.emit] at h
        exact ⟨tr0, route, w1, server, w2, tr1, rfl, hp, hl, by simp [← h]⟩
      | done tr1 a =>
        obtain ⟨st1, w4⟩ := a
        simp [od_router_session, hr, hp, hl, Run.emit] at h

theorem terminal_event_range (e : Event) (st : odrouter_status_t)
    (h : terminal_event e = some st) :
    st = odrouter_status_t.OD_RS_OK ∨ st = odrouter_status_t.OD_RS_ECLIENT_READ ∨
    st = odrouter_status_t.OD_RS_ECLIENT_WRITE ∨ st = odrouter_status_t.OD_RS_ESERVER_READ ∨
    st = odrouter_status_t.OD_RS_ESERVER_WRITE := by
  unfold terminal_event at h
  split at h
  · simp at h; simp [← h]
  · split at h
    · simp at h; simp [← h]
    · simp at h
  · simp at h; simp [← h]
  · simp at h; simp [← h]
  · simp at h; simp [← h]
  · simp at h

theorem quiet_of_routing (tr : List Event) (h : ∀ e ∈ tr, e.is_routing = true) : quiet tr := by
  intro e he
  have := h e he
  cases e <;> simp [Event.is_routing] at this <;> rfl

theorem quiet_client_messages (pre : List Event) (hq : quiet pre) :
    ∀ m ∈ pre.filterMap Event.client_message, m.type ≠ 'X' := by
  intro m hm
  obtain ⟨e, he, hem⟩ := List.mem_filterMap.1 hm
  have hqe := hq e he
  cases e with
  | od_read io result =>
    cases io with
    | client =>
      cases result with
      | none => simp [Event.client_message] at hem
      | some stream =>
        simp [Event.client_message] at hem
        subst hem
        intro hx
        simp [terminal_event, hx] at hqe
    | server s => simp [Event.client_message] at hem
  | _ => simp [Event.client_message] at hem

theorem ok_iff_last_client_message (pre : List Event) (last : Event) (st : odrouter_status_t)
    (hq : quiet pre) (hl : terminal_event last = some st) :
    st = odrouter_status_t.OD_RS_OK ↔
      ∃ m, last_client_message (pre ++ [last]) = some m ∧ m.type = 'X' := by
  have hpre := quiet_client_messages pre hq
  unfold last_client_message
  rw [List.filterMap_append]
  cases hc : Event.client_message last with
  | some m =>
    have hlast : last = Event.od_read odio_t.client (some m) := by
      cases last with
      | od_read io result =>
        cases io with
        | client =>
          cases result with
          | none => simp [Event.client_message] at hc
          | some stream => simp [Event.client_message] at hc; rw [hc]
        | server s => simp [Event.client_message] at hc
      | _ => simp [Event.client_message] at hc
    subst hlast
    simp only [List.filterMap_cons, List.filterMap_nil, hc, List.getLast?_concat]
    by_cases hx : m.type = 'X'
    · simp [terminal_event, hx] at hl
      constructor
      · intro _; exact ⟨m, rfl, hx⟩
      · intro _; exact hl.symm
    · simp [terminal_event, hx] at hl
  | none =>
    simp only [List.filterMap_cons, List.filterMap_nil, hc, List.append_nil]
    constructor
    · intro hst
      subst hst
      exfalso
      cases last with
      | od_read io result =>
        cases io with
        | client =>
          cases result with
          | none => simp [terminal_event] at hl
          | some stream => simp [Event.client_message] at hc
        | server s => cases result <;> simp [terminal_event] at hl
      | od_write io stream ok =>
        cases io <;> cases ok <;> simp [terminal_event] at hl
      | _ => simp [terminal_event] at hl
    · rintro ⟨m, hm, hx⟩
      exact absurd hx (hpre m (List.mem_of_getLast?_eq_some hm))

theorem trace_emit {α : Type} (es : List Event) (r : Run α) :
    (Run.emit es r).trace = es ++ r.trace := by
  cases r <;> rfl

theorem feed_extends {W : Type} (ext : Extern W) (server : odserver_t) (n : Nat) :
    ∀ (w : W) (tr : List Event), od_router_session_feed ext server n w = Run.fuel_out tr →
      ∀ m, n ≤ m → ∃ rest, (od_router_session_feed ext server m w).trace = tr ++ rest := by
  induction n with
  | zero =>
    intro w tr h m _
    simp [od_router_session_feed] at h
    subst h
    exact ⟨_, (List.nil_append _).symm⟩
  | succ n ih =>
    intro w tr h m hm
    obtain ⟨k, hk⟩ : ∃ k, m = k + 1 := ⟨m - 1, by omega⟩
    subst hk
    rw [od_router_session_feed] at h ⊢
    rcases hr : ext.od_read w (odio_t.server server) with ⟨_ | stream, w1⟩
    · simp only [hr] at h; simp at h
    · simp only [hr] at h ⊢
      rcases hw : ext.od_write w1 odio_t.client stream with ⟨_ | _, w2⟩
      · simp only [hw] at h; simp at h
      · simp only [hw] at h ⊢
        by_cases hz : stream.type = 'Z'
        · simp only [hz, if_true] at h; simp at h
        · simp only [hz, if_false] at h ⊢
          cases hf : od_router_session_feed ext server n w2 with
          | done tr0 a0 => rw [hf] at h; simp [Run.emit] at h
          | fuel_out tr0 =>
            rw [hf] at h
            simp [Run.emit] at h
            obtain ⟨rest, hrest⟩ := ih w2 tr0 hf k (by omega)
            refine ⟨rest, ?_⟩
            rw [trace_emit, hrest, ← h]
            simp

theorem loop_extends {W : Type} (ext : Extern W) (server : odserver_t) (n : Nat) :
    ∀ (w : W) (tr : List Event), od_router_session_loop ext server n w = Run.fuel_out tr →
      ∀ m, n ≤ m → ∃ rest, (od_router_session_loop ext server m w).trace = tr ++ rest := by
  induction n with
  | zero =>
    intro w tr h m _
    simp [od_router_session_loop] at h
    subst h
    exact ⟨_, (List.nil_append _).symm⟩
  | succ n ih =>
    intro w tr h m hm
    obtain ⟨k, hk⟩ : ∃ k, m = k + 1 := ⟨m - 1, by omega⟩
    subst hk
    have hnk : n ≤ k := by omega
    rw [od_router_session_loop] at h ⊢
    rcases hr : ext.od_read w odio_t.client with ⟨_ | stream, w1⟩
    · simp only [hr] at h; simp at h
    · simp only [hr] at h ⊢
      by_cases hx : stream.type = 'X'
      · simp only [hx, if_true] at h; simp at h
      · simp only [hx, if_false] at h ⊢
        rcases hw : ext.od_write w1 (odio_t.server server) stream with ⟨_ | _, w2⟩
        · simp only [hw] at h; simp at h
        · simp only [hw] at h ⊢
          cases hf : od_router_session_feed ext server n w2 with
          | fuel_out tr0 =>
            rw [hf] at h
            simp [Run.emit] at h
            obtain ⟨rest, hrest⟩ := feed_extends ext server n w2 tr0 hf k hnk
            cases hfk : od_router_session_feed ext server k w2 with
            | fuel_out t =>
              rw [hfk] at hrest
              simp only [Run.trace] at hrest
              refine ⟨rest, ?_⟩
              rw [trace_emit, ← h, hrest]
              simp [Run.trace]
            | done t a =>
              rw [hfk] at hrest
              simp only [Run.trace] at hrest
              obtain ⟨r, w3⟩ := a
              cases r with
              | some st0 =>
                refine ⟨rest, ?_⟩
                rw [trace_emit, ← h, hrest]
                simp [Run.trace]
              | none =>
                refine ⟨rest ++ (od_router_session_loop ext server k w3).trace, ?_⟩
                rw [trace_emit, ← h, hrest]
                simp [trace_emit]
          | done tr0 a0 =>
            obtain ⟨r, w3⟩ := a0
            rw [feed_mono ext server n k hnk w2 tr0 (r, w3) hf]
            rw [hf] at h
            cases r with
            | some st0 => simp [Run.emit] at h
            | none =>
              simp only at h ⊢
              cases hl : od_router_session_loop ext server n w3 with
              | done tr1 a1 => rw [hl] at h; simp [Run.emit] at h
              | fuel_out tr1 =>
                rw [hl] at h
                simp [Run.emit] at h
                obtain ⟨rest, hrest⟩ := ih w3 tr1 hl k hnk
                refine ⟨rest, ?_⟩
                rw [trace_emit, trace_emit, hrest, ← h]
                simp

theorem session_progress {W : Type} (ext : Extern W) (n : Nat) (scheme : odscheme_t) (w : W)
    (client : odclient_t) (tr1 : List Event)
    (hn : od_router_session ext n scheme w client = Run.fuel_out tr1) :
    quiet tr1 ∧ 2 * n ≤ tr1.length ∧
    (∃ route server, Event.od_bepop route (some server) ∈ tr1) ∧
    (∀ m, n ≤ m → ∃ rest, (od_router_session ext m scheme w client).trace = tr1 ++ rest) := by
  obtain ⟨tr0, route, w2, server, w3, tr2, hr, hp, hl, htr⟩ :=
    session_fuel_out ext n scheme w client tr1 hn
  obtain ⟨hq, hlen⟩ := (loop_spec ext server n w3).2 tr2 hl
  have hq0 : quiet tr0 := by
    apply quiet_of_routing
    have := route_trace_routing ext scheme w client.startup
    rw [hr] at this; exact this
  have hqb : quiet [Event.od_bepop route (some server)] := by
    intro e he; simp at he; subst he; rfl
  subst htr
  refine ⟨quiet_append (quiet_append hq0 hqb) hq, by simp; omega, ⟨route, server, by simp⟩, ?_⟩
  intro m hm
  obtain ⟨rest, hrest⟩ := loop_extends ext server n w3 tr2 hl m hm
  refine ⟨rest, ?_⟩
  cases hlm : od_router_session_loop ext server m w3 with
  | fuel_out t =>
    rw [hlm] at hrest
    simp only [Run.trace] at hrest
    simp [od_router_session, hr, hp, hlm, Run.emit, Run.trace, hrest]
  | done t a =>
    obtain ⟨st, w4⟩ := a
    rw [hlm] at hrest
    simp only [Run.trace] at hrest
    simp [od_router_session, hr, hp, hlm, Run.emit, Run.trace, hrest]

theorem session_done_outcome {W : Type} (ext : Extern W) (fuel : Nat)
    (scheme : odscheme_t) (w : W) (client : odclient_t) (tr : List Event)
    (st : odrouter_status_t) (c1 : odclient_t) (w1 : W)
    (h : od_router_session ext fuel scheme w client = Run.done tr (st, c1, w1)) :
    st ≠ odrouter_status_t.OD_RS_UNDEF ∧
    ((∃ route server, Event.od_bepop route (some server) ∈ tr) →
      (∃ pre last, tr = pre ++ [last] ∧ quiet pre ∧ terminal_event last = some st) ∧
      (st = odrouter_status_t.OD_RS_OK ↔
        ∃ m, last_client_message tr = some m ∧ m.type = 'X')) ∧
    (∀ n, fuel ≤ n →
      od_router_session ext n scheme w client = Run.done tr (st, c1, w1)) ∧
    ((∀ route server, Event.od_bepop route (some server) ∉ tr) → quiet tr) := by
  rcases session_done ext fuel scheme w client tr st c1 w1 h with
    ⟨hr, hst, hc⟩ | ⟨tr0, route, w2, hr, hp, htr, hst, hc⟩ |
    ⟨tr0, route, w2, server, w3, tr1, hr, hp, hl, htr, hc⟩
  · have hrt := route_trace_routing ext scheme w client.startup
    rw [hr] at hrt
    refine ⟨by rw [hst]; decide, ?_, ?_, fun _ => quiet_of_routing tr hrt⟩
    · rintro ⟨route, server, hmem⟩
      have := hrt _ hmem
      simp [Event.is_routing] at this
    · intro n _
      simp [od_router_session, hr, hst, hc]
  · have hrt := route_trace_routing ext scheme w client.startup
    rw [hr] at hrt
    refine ⟨by rw [hst]; decide, ?_, ?_, ?_⟩
    · rintro ⟨route1, server, hmem⟩
      rw [htr] at hmem
      simp at hmem
      have := hrt _ hmem
      simp [Event.is_routing] at this
    · intro n _
      simp [od_router_session, hr, hp, hst, hc, htr]
    · intro _
      rw [htr]
      apply quiet_append (quiet_of_routing tr0 hrt)
      intro e he; simp at he; subst he; rfl
  · obtain ⟨pre, last, hpre, hq, hlast⟩ := (loop_spec ext server fuel w3).1 tr1 st w1 hl
    have hq0 : quiet tr0 := by
      apply quiet_of_routing
      have := route_trace_routing ext scheme w client.startup
      rw [hr] at this; exact this
    have hqb : quiet [Event.od_bepop route (some server)] := by
      intro e he; simp at he; subst he; rfl
    have hqpre : quiet (tr0 ++ [Event.od_bepop route (some server)] ++ pre) :=
      quiet_append (quiet_append hq0 hqb) hq
    have htr2 : tr = (tr0 ++ [Event.od_bepop route (some server)] ++ pre) ++ [last] := by
      rw [htr, hpre]; simp
    refine ⟨?_, ?_, ?_, ?_⟩
    · rcases terminal_event_range last st hlast with h1 | h1 | h1 | h1 | h1 <;>
        rw [h1] <;> decide
    · intro _
      refine ⟨⟨_, last, htr2, hqpre, hlast⟩, ?_⟩
      rw [htr2]
      exact ok_iff_last_client_message _ last st hqpre hlast
    · intro n hn
      have := loop_mono ext server fuel n hn w3 tr1 (st, w1) hl
      simp [od_router_session, hr, hp, this, Run.emit, htr, hc]
    · intro hno
      exact absurd (by rw [htr]; simp) (hno route server)

/-- C4.  The outcome of `od_router_session` is fixed by the first terminal
event in I/O order.  For every behaviour of the collaborators and every amount
of fuel:

* a session that has not returned after `fuel` units of fuel has leased a
  server and performed at least `2 * fuel` calls, none of them a terminal
  event, and with more fuel the run goes on from exactly these calls;
* as soon as a terminal event is among the calls of the run, the session has
  returned, that event is its last call, and the outcome is the one of that
  event: a failed client read gives `OD_RS_ECLIENT_READ`, a failed server write
  `OD_RS_ESERVER_WRITE`, a failed server read `OD_RS_ESERVER_READ`, a failed
  client write `OD_RS_ECLIENT_WRITE`, a client message tagged `'X'`
  `OD_RS_OK`;
* whenever a session returns, the outcome is not `OD_RS_UNDEF`, more fuel does
  not change the result, and when a server was leased (the trace has a
  successful `od_bepop`) the trace is a run of calls none of which is terminal
  followed by exactly one terminal event whose outcome is returned; the outcome
  is `OD_RS_OK` exactly when the last message successfully read from the client
  is tagged `'X'`;
* at the head of either loop, each failure returns its outcome at once,
  whatever the fuel left (as long as there is some). -/
theorem session_outcome_is_first_terminal_event {W : Type} (ext : Extern W) (fuel : Nat)
    (scheme : odscheme_t) (w : W) (client : odclient_t) :
    (∀ tr1, od_router_session ext fuel scheme w client = Run.fuel_out tr1 →
      quiet tr1 ∧ 2 * fuel ≤ tr1.length ∧
      (∃ route server, Event.od_bepop route (some server) ∈ tr1) ∧
      (∀ m, fuel ≤ m →
        ∃ rest, (od_router_session ext m scheme w client).trace = tr1 ++ rest)) ∧
    (∀ e st, e ∈ (od_router_session ext fuel scheme w client).trace →
      terminal_event e = some st →
      ∃ tr c1 w1, od_router_session ext fuel scheme w client = Run.done tr (st, c1, w1) ∧
        tr.getLast? = some e) ∧
    (∀ tr st c1 w1, od_router_session ext fuel scheme w client = Run.done tr (st, c1, w1) →
      st ≠ odrouter_status_t.OD_RS_UNDEF ∧
      ((∃ route server, Event.od_bepop route (some server) ∈ tr) →
        (∃ pre last, tr = pre ++ [last] ∧ quiet pre ∧ terminal_event last = some st) ∧
        (st = odrouter_status_t.OD_RS_OK ↔
          ∃ m, last_client_message tr = some m ∧ m.type = 'X')) ∧
      (∀ n, fuel ≤ n →
        od_router_session ext n scheme w client = Run.done tr (st, c1, w1))) ∧
    (∀ server n w0 w1, ext.od_read w0 odio_t.client = (none, w1) →
      od_router_session_loop ext server (n + 1) w0 =
        Run.done [Event.od_read odio_t.client none]
          (odrouter_status_t.OD_RS_ECLIENT_READ, w1)) ∧
    (∀ server n w0 w1 stream, ext.od_read w0 odio_t.client = (some stream, w1) →
      stream.type = 'X' →
      od_router_session_loop ext server (n + 1) w0 =
        Run.done [Event.od_read odio_t.client (some stream)]
          (odrouter_status_t.OD_RS_OK, w1)) ∧
    (∀ server n w0 w1 w2 stream, ext.od_read w0 odio_t.client = (some stream, w1) →
      stream.type ≠ 'X' →
      ext.od_write w1 (odio_t.server server) stream = (false, w2) →
      od_router_session_loop ext server (n + 1) w0 =
        Run.done [Event.od_read odio_t.client (some stream),
            Event.od_write (odio_t.server server) stream false]
          (odrouter_status_t.OD_RS_ESERVER_WRITE, w2)) ∧
    (∀ server n w0 w1, ext.od_read w0 (odio_t.server server) = (none, w1) →
      od_router_session_feed ext server (n + 1) w0 =
        Run.done [Event.od_read (odio_t.server server) none]
          (some odrouter_status_t.OD_RS_ESERVER_READ, w1)) ∧
    (∀ server n w0 w1 w2 stream,
      ext.od_read w0 (odio_t.server server) = (some stream, w1) →
      ext.od_write w1 odio_t.client stream = (false, w2) →
      od_router_session_feed ext server (n + 1) w0 =
        Run.done [Event.od_read (odio_t.server server) (some stream),
            Event.od_write odio_t.client stream false]
          (some odrouter_status_t.OD_RS_ECLIENT_WRITE, w2)) := by
  refine ⟨?_, ?_, ?_, ?_, ?_, ?_, ?_, ?_⟩
  · intro tr1 hn
    exact session_progress ext fuel scheme w client tr1 hn
  · intro e st he hterm
    cases hs : od_router_session ext fuel scheme w client with
    | fuel_out tr1 =>
      rw [hs] at he
      have hq := (session_progress ext fuel scheme w client tr1 hs).1
      have := hq e he
      rw [hterm] at this
      simp at this
    | done tr a =>
      obtain ⟨st1, c1, w1⟩ := a
      rw [hs] at he
      simp only [Run.trace] at he
      obtain ⟨_, hleased, _, hquiet⟩ :=
        session_done_outcome ext fuel scheme w client tr st1 c1 w1 hs
      by_cases hb : ∃ route server, Event.od_bepop route (some server) ∈ tr
      · obtain ⟨⟨pre, last, htr, hq, hlast⟩, _⟩ := hleased hb
        rw [htr] at he
        rcases List.mem_append.1 he with hpre | hl
        · have := hq e hpre
          rw [hterm] at this
          simp at this
        · simp at hl
          subst hl
          rw [hterm] at hlast
          simp at hlast
          subst hlast
          exact ⟨tr, c1, w1, rfl, by rw [htr]; simp⟩
      · have hq := hquiet (by
          intro route server hmem
          exact hb ⟨route, server, hmem⟩)
        have := hq e he
        rw [hterm] at this
        simp at this
  · intro tr st c1 w1 h
    obtain ⟨h1, h2, h3, _⟩ := session_done_outcome ext fuel scheme w client tr st c1 w1 h
    exact ⟨h1, h2, h3⟩
  · intro server n w0 w1 hr
    simp [od_router_session_loop, hr]
  · intro server n w0 w1 stream hr hx
    simp [od_router_session_loop, hr, hx]
  · intro server n w0 w1 w2 stream hr hx hw
    simp [od_router_session_loop, hr, hx, hw]
  · intro server n w0 w1 hr
    simp [od_router_session_feed, hr]
  · intro server n w0 w1 w2 stream hr hw
    simp [od_router_session_feed, hr, hw]

/-! ## Kinds of calls in a trace -/

theorem filter_nil_of_kind (p q : Event → Bool) (hpq : ∀ e, q e = true → p e = false)
    (tr : List Event) (h : ∀ e ∈ tr, q e = true) : tr.filter p = [] := by
  rw [List.filter_eq_nil_iff]
  intro e he
  simp [hpq e (h e he)]

theorem routing_not_release (e : Event) (h : e.is_routing = true) : e.is_release = false := by
  cases e <;> simp [Event.is_routing] at h <;> rfl

theorem routing_not_feclose (e : Event) (h : e.is_routing = true) : e.is_feclose = false := by
  cases e <;> simp [Event.is_routing] at h <;> rfl

theorem routing_not_bepop (e : Event) (h : e.is_routing = true) : e.is_bepop = false := by
  cases e <;> simp [Event.is_routing] at h <;> rfl

theorem routing_not_transfer (e : Event) (h : e.is_routing = true) : e.is_transfer = false := by
  cases e <;> simp [Event.is_routing] at h <;> rfl

theorem transfer_not_release (e : Event) (h : e.is_transfer = true) : e.is_release = false := by
  cases e <;> simp [Event.is_transfer] at h <;> rfl

theorem transfer_not_feclose (e : Event) (h : e.is_transfer = true) : e.is_feclose = false := by
  cases e <;> simp [Event.is_transfer] at h <;> rfl

theorem transfer_not_bepop (e : Event) (h : e.is_transfer = true) : e.is_bepop = false := by
  cases e <;> simp [Event.is_transfer] at h <;> rfl

/-- The calls of a session that returned: route pool calls, then at most one
`od_bepop`, then protocol reads and writes. -/
theorem session_trace_filters {W : Type} (ext : Extern W) (fuel : Nat) (scheme : odscheme_t)
    (w : W) (client : odclient_t) (tr : List Event) (st : odrouter_status_t) (c1 : odclient_t)
    (w1 : W) (h : od_router_session ext fuel scheme w client = Run.done tr (st, c1, w1)) :
    tr.filter Event.is_release = [] ∧ tr.filter Event.is_feclose = [] ∧
    ((st = odrouter_status_t.OD_RS_EROUTE ∧ c1 = client ∧ tr.filter Event.is_bepop = []) ∨
     (st = odrouter_status_t.OD_RS_EPOOL ∧ c1 = client ∧
        ∃ route, tr.filter Event.is_bepop = [Event.od_bepop route none]) ∨
     ((st = odrouter_status_t.OD_RS_OK ∨ st = odrouter_status_t.OD_RS_ECLIENT_READ ∨
        st = odrouter_status_t.OD_RS_ECLIENT_WRITE ∨ st = odrouter_status_t.OD_RS_ESERVER_READ ∨
        st = odrouter_status_t.OD_RS_ESERVER_WRITE) ∧
        ∃ route server, c1 = { client with server := some server } ∧
          tr.filter Event.is_bepop = [Event.od_bepop route (some server)])) := by
  have hrt := route_trace_routing ext scheme w client.startup
  rcases session_done ext fuel scheme w client tr st c1 w1 h with
    ⟨hr, hst, hc⟩ | ⟨tr0, route, w2, hr, hp, htr, hst, hc⟩ |
    ⟨tr0, route, w2, server, w3, tr1, hr, hp, hl, htr, hc⟩
  · rw [hr] at hrt
    refine ⟨filter_nil_of_kind _ _ routing_not_release tr hrt,
      filter_nil_of_kind _ _ routing_not_feclose tr hrt, Or.inl ⟨hst, hc, ?_⟩⟩
    exact filter_nil_of_kind _ _ routing_not_bepop tr hrt
  · rw [hr] at hrt
    subst htr
    refine ⟨?_, ?_, Or.inr (Or.inl ⟨hst, hc, route, ?_⟩)⟩
    · simp [List.filter_append, filter_nil_of_kind _ _ routing_not_release tr0 hrt,
        Event.is_release]
    · simp [List.filter_append, filter_nil_of_kind _ _ routing_not_feclose tr0 hrt,
        Event.is_feclose]
    · simp [List.filter_append, filter_nil_of_kind _ _ routing_not_bepop tr0 hrt,
        Event.is_bepop]
  · rw [hr] at hrt
    have htf := loop_transfer ext server fuel w3
    rw [hl] at htf
    simp only [Run.trace] at htf
    obtain ⟨pre, last, _, _, hlast⟩ := (loop_spec ext server fuel w3).1 tr1 st w1 hl
    subst htr
    refine ⟨?_, ?_, Or.inr (Or.inr ⟨terminal_event_range last st hlast, route, server, hc, ?_⟩)⟩
    · simp [List.filter_append, filter_nil_of_kind _ _ routing_not_release tr0 hrt,
        filter_nil_of_kind _ _ transfer_not_release tr1 htf, Event.is_release]
    · simp [List.filter_append, filter_nil_of_kind _ _ routing_not_feclose tr0 hrt,
        filter_nil_of_kind _ _ transfer_not_feclose tr1 htf, Event.is_feclose]
    · simp [List.filter_append, filter_nil_of_kind _ _ routing_not_bepop tr0 hrt,
        filter_nil_of_kind _ _ transfer_not_bepop tr1 htf, Event.is_bepop]

/-- C1.  The server-side action of `od_router` is the one of the cleanup
table.  In session mode, when `od_router_session` returns outcome `st` after
the calls `tr`, `od_router` continues with the calls of the cleanup `switch`,
and among the calls of the whole run the only `od_bereset` / `od_beclose` are
those of the `switch`: for `OD_RS_OK`, `OD_RS_ECLIENT_READ` and
`OD_RS_ECLIENT_WRITE` exactly `od_bereset` of the server that `od_bepop`
returned (no `od_beclose`); for `OD_RS_ESERVER_READ` and `OD_RS_ESERVER_WRITE`
exactly `od_beclose` of that server (no `od_bereset`); for `OD_RS_EROUTE` and
`OD_RS_EPOOL` neither of them.  These seven are the only outcomes the session
hands over. -/
theorem cleanup_follows_table {W : Type} (ndebug : Bool) (ext : Extern W) (fuel : Nat)
    (scheme : odscheme_t) (w : W) (client : odclient_t) (tr : List Event)
    (st : odrouter_status_t) (c1 : odclient_t) (w1 : W)
    (hmode : scheme.pooling_mode = odpooling_t.OD_PSESSION)
    (h : od_router_session ext fuel scheme w client = Run.done tr (st, c1, w1)) :
    od_router_execute ndebug ext fuel scheme w client =
      Run.done (tr ++ (od_router_cleanup ndebug st c1).1) (od_router_cleanup ndebug st c1).2 ∧
    tr.filter Event.is_release = [] ∧
    ((st = odrouter_status_t.OD_RS_OK ∨ st = odrouter_status_t.OD_RS_ECLIENT_READ ∨
        st = odrouter_status_t.OD_RS_ECLIENT_WRITE) →
      ∃ route server, tr.filter Event.is_bepop = [Event.od_bepop route (some server)] ∧
        (od_router_cleanup ndebug st c1).1.filter Event.is_release =
          [Event.od_bereset (some server)]) ∧
    ((st = odrouter_status_t.OD_RS_ESERVER_READ ∨ st = odrouter_status_t.OD_RS_ESERVER_WRITE) →
      ∃ route server, tr.filter Event.is_bepop = [Event.od_bepop route (some server)] ∧
        (od_router_cleanup ndebug st c1).1.filter Event.is_release =
          [Event.od_beclose (some server)]) ∧
    ((st = odrouter_status_t.OD_RS_EROUTE ∨ st = odrouter_status_t.OD_RS_EPOOL) →
      (od_router_cleanup ndebug st c1).1.filter Event.is_release = []) ∧
    (st = odrouter_status_t.OD_RS_OK ∨ st = odrouter_status_t.OD_RS_ECLIENT_READ ∨
      st = odrouter_status_t.OD_RS_ECLIENT_WRITE ∨ st = odrouter_status_t.OD_RS_ESERVER_READ ∨
      st = odrouter_status_t.OD_RS_ESERVER_WRITE ∨ st = odrouter_status_t.OD_RS_EROUTE ∨
      st = odrouter_status_t.OD_RS_EPOOL) := by
  obtain ⟨hrel, _, hcases⟩ := session_trace_filters ext fuel scheme w client tr st c1 w1 h
  refine ⟨by simp [od_router_execute, hmode, h], hrel, ?_, ?_, ?_, ?_⟩
  · intro hst
    rcases hcases with ⟨h1, _⟩ | ⟨h1, _⟩ | ⟨_, route, server, hc, hb⟩
    · rw [h1] at hst; simp at hst
    · rw [h1] at hst; simp at hst
    · refine ⟨route, server, hb, ?_⟩
      rcases hst with h1 | h1 | h1 <;> subst h1 <;> subst hc <;>
        simp [od_router_cleanup, Event.is_release]
  · intro hst
    rcases hcases with ⟨h1, _⟩ | ⟨h1, _⟩ | ⟨_, route, server, hc, hb⟩
    · rw [h1] at hst; simp at hst
    · rw [h1] at hst; simp at hst
    · refine ⟨route, server, hb, ?_⟩
      rcases hst with h1 | h1 <;> subst h1 <;> subst hc <;>
        simp [od_router_cleanup, Event.is_release]
  · intro hst
    rcases hst with h1 | h1 <;> subst h1 <;>
      cases ndebug <;> cases hs : c1.server <;>
      simp [od_router_cleanup, Event.is_release, hs]
  · rcases hcases with ⟨h1, _⟩ | ⟨h1, _⟩ | ⟨h1, _⟩
    · simp [h1]
    · simp [h1]
    · rcases h1 with h1 | h1 | h1 | h1 | h1 <;> simp [h1]

/-- Witness of C1: a session whose server goes away after the first request
ends with `OD_RS_ESERVER_READ`, and the cleanup closes server `7`. -/
theorem cleanup_follows_table_witness :
    (demo_scheme odpooling_t.OD_PSESSION).pooling_mode = odpooling_t.OD_PSESSION ∧
    od_router_execute false (script_ext demo_scenario) 3 (demo_scheme odpooling_t.OD_PSESSION)
        ⟨[msg_query], [msg_data], []⟩ demo_client =
      Run.done
        ([Event.od_routepool_match (od_route_id demo_route demo_startup) none,
          Event.od_routepool_new demo_route (od_route_id demo_route demo_startup) (some 0),
          Event.od_bepop 0 (some 7),
          Event.od_read odio_t.client (some msg_query),
          Event.od_write (odio_t.server 7) msg_query true,
          Event.od_read (odio_t.server 7) (some msg_data),
          Event.od_write odio_t.client msg_data true,
          Event.od_read (odio_t.server 7) none] ++
          [Event.od_feclose, Event.od_beclose (some 7)])
        Exit.returned :=
  ⟨rfl, (cleanup_follows_table false (script_ext demo_scenario) 3
    (demo_scheme odpooling_t.OD_PSESSION) ⟨[msg_query], [msg_data], []⟩ demo_client
    _ odrouter_status_t.OD_RS_ESERVER_READ { demo_client with server := some 7 }
    ⟨[], [], [od_route_id demo_route demo_startup]⟩ rfl (by decide)).1⟩

theorem script_route_frame (sc : Scenario) (scheme : odscheme_t) (w : Script)
    (startup : sobestartup_t) :
    (od_route (script_ext sc) scheme w startup).2.2 =
      ⟨w.client_in, w.server_in, (od_route (script_ext sc) scheme w startup).2.2.route_pool⟩ := by
  rcases route_trace_cases (script_ext sc) scheme w startup with ⟨_, h⟩ | ⟨_, _, _, _, h⟩ |
    ⟨rs, res, w1, _, _, hn, h⟩
  · rw [h]
  · rw [h]
  · rw [h]
    simp only [script_ext] at hn
    by_cases ha : sc.alloc_ok = true
    · simp [ha] at hn
      rw [← hn.2]
    · simp [ha] at hn
      rw [← hn.2]

theorem reply_trace_server_written (server : odserver_t) (ms : List sostream_t) :
    (reply_trace server ms).filterMap Event.server_written = [] := by
  induction ms with
  | nil => rfl
  | cons m rest ih => simp [reply_trace, Event.server_written, ih]

theorem reply_trace_client_written (server : odserver_t) (ms : List sostream_t) :
    (reply_trace server ms).filterMap Event.client_written = ms := by
  induction ms with
  | nil => rfl
  | cons m rest ih => simp [reply_trace, Event.client_written, ih]

theorem reply_trace_transfer (server : odserver_t) (ms : List sostream_t) :
    (reply_trace server ms).filter Event.is_transfer = reply_trace server ms := by
  induction ms with
  | nil => rfl
  | cons m rest ih => simp [reply_trace, Event.is_transfer, ih]

theorem session_trace_server_written (server : odserver_t)
    (exs : List (sostream_t × List sostream_t)) :
    (session_trace server exs).filterMap Event.server_written = exs.map Prod.fst := by
  induction exs with
  | nil => rfl
  | cons e rest ih =>
    simp [session_trace, Event.server_written, List.filterMap_append,
      reply_trace_server_written, ih]

theorem session_trace_client_written (server : odserver_t)
    (exs : List (sostream_t × List sostream_t)) :
    (session_trace server exs).filterMap Event.client_written = all_replies exs := by
  induction exs with
  | nil => rfl
  | cons e rest ih =>
    simp [session_trace, Event.client_written, List.filterMap_append,
      reply_trace_client_written, all_replies, ih]

theorem session_trace_transfer (server : odserver_t)
    (exs : List (sostream_t × List sostream_t)) :
    (session_trace server exs).filter Event.is_transfer = session_trace server exs := by
  induction exs with
  | nil => rfl
  | cons e rest ih =>
    simp [session_trace, Event.is_transfer, List.filter_append, reply_trace_transfer, ih]

theorem routing_not_written (tr : List Event) (h : ∀ e ∈ tr, e.is_routing = true) :
    tr.filterMap Event.server_written = [] ∧ tr.filterMap Event.client_written = [] := by
  constructor
  · rw [List.filterMap_eq_nil_iff]
    intro e he
    have := h e he
    cases e <;> simp [Event.is_routing] at this <;> rfl
  · rw [List.filterMap_eq_nil_iff]
    intro e he
    have := h e he
    cases e <;> simp [Event.is_routing] at this <;> rfl

/-- C5.  Forwarding order is preserved.  For every scripted session of
requests none of which is tagged `'X'`, each answered by a burst of at least
one server message of which only the last is tagged `'Z'`, with every read and
write succeeding, and ended by a terminate message or by the client going
away: with enough fuel `od_router_session` returns, and its protocol reads and
writes are exactly `session_trace` followed by the last client read; that is,
each request is read and written to the server, then every message of its
burst is read and written to the client in order, and only then the next
request is read.  The messages written to the server are the requests in the
order received, the messages written to the client are all server messages in
the order produced: nothing is reordered, dropped, duplicated or batched. -/
theorem forwarding_order_preserved (sc : Scenario) (scheme : odscheme_t) (client : odclient_t)
    (route : odroute_t) (server : odserver_t) (exs : List (sostream_t × List sostream_t))
    (fin : Option sostream_t) (extra : List sostream_t) (pool : List odroute_id_t)
    (hroute : (od_route (script_ext sc) scheme
      ⟨exs.map Prod.fst ++ fin.toList, all_replies exs ++ extra, pool⟩ client.startup).2.1 =
        some route)
    (hpop : sc.bepop = some server)
    (hexs : ∀ e ∈ exs, e.1.type ≠ 'X' ∧ ready_burst e.2 = true)
    (hfin : ∀ m ∈ fin, m.type = 'X') :
    ∃ fuel, ∀ n, fuel ≤ n → ∃ tr tr0 pool1,
      od_router_session (script_ext sc) n scheme
          ⟨exs.map Prod.fst ++ fin.toList, all_replies exs ++ extra, pool⟩ client =
        Run.done tr (closing_status fin, { client with server := some server },
          ⟨[], extra, pool1⟩) ∧
      tr = tr0 ++ [Event.od_bepop route (some server)] ++ session_trace server exs ++
        [Event.od_read odio_t.client fin] ∧
      tr.filter Event.is_transfer =
        session_trace server exs ++ [Event.od_read odio_t.client fin] ∧
      tr.filterMap Event.server_written = exs.map Prod.fst ∧
      tr.filterMap Event.client_written = all_replies exs := by
  rcases hr : od_route (script_ext sc) scheme
    ⟨exs.map Prod.fst ++ fin.toList, all_replies exs ++ extra, pool⟩ client.startup
    with ⟨tr0, r, w1⟩
  have hframe := script_route_frame sc scheme
    ⟨exs.map Prod.fst ++ fin.toList, all_replies exs ++ extra, pool⟩ client.startup
  have hrt := route_trace_routing (script_ext sc) scheme
    ⟨exs.map Prod.fst ++ fin.toList, all_replies exs ++ extra, pool⟩ client.startup
  rw [hr] at hroute hframe hrt
  simp only at hroute hframe hrt
  subst hroute
  obtain ⟨fuel, hloop⟩ := loop_script sc server fin hfin extra w1.route_pool exs hexs
  refine ⟨fuel, fun n hn => ⟨_, tr0, w1.route_pool, ?_, rfl, ?_, ?_, ?_⟩⟩
  · have hl := hloop n hn
    have hp : (script_ext sc).od_bepop w1 route = (some server, w1) := by
      simp [script_ext, hpop]
    rw [← hframe] at hl
    simp [od_router_session, hr, hp, hl, Run.emit]
  · have h1 := filter_nil_of_kind _ _ routing_not_transfer tr0 hrt
    cases fin <;>
      simp [List.filter_append, h1, session_trace_transfer, Event.is_transfer]
  · have h1 := (routing_not_written tr0 hrt).1
    cases fin <;>
      simp [List.filterMap_append, h1, session_trace_server_written, Event.server_written]
  · have h1 := (routing_not_written tr0 hrt).2
    cases fin <;>
      simp [List.filterMap_append, h1, session_trace_client_written, Event.client_written]

/-- Witness of C5: two requests, the first answered by two messages, the
second by one, then a terminate message. -/
theorem forwarding_order_preserved_witness :
    (∀ e ∈ demo_exchanges, e.1.type ≠ 'X' ∧ ready_burst e.2 = true) ∧
    session_trace 7 demo_exchanges =
      [Event.od_read odio_t.client (some msg_query),
        Event.od_write (odio_t.server 7) msg_query true,
        Event.od_read (odio_t.server 7) (some msg_data),
        Event.od_write odio_t.client msg_data true,
        Event.od_read (odio_t.server 7) (some msg_ready),
        Event.od_write odio_t.client msg_ready true,
        Event.od_read odio_t.client (some msg_query),
        Event.od_write (odio_t.server 7) msg_query true,
        Event.od_read (odio_t.server 7) (some msg_ready),
        Event.od_write odio_t.client msg_ready true] ∧
    ∃ fuel, ∀ n, fuel ≤ n → ∃ tr tr0 pool1,
      od_router_session (script_ext demo_scenario) n (demo_scheme odpooling_t.OD_PSESSION)
          ⟨demo_exchanges.map Prod.fst ++ (some msg_terminate).toList,
            all_replies demo_exchanges ++ [], []⟩ demo_client =
        Run.done tr (odrouter_status_t.OD_RS_OK, { demo_client with server := some 7 },
          ⟨[], [], pool1⟩) ∧
      tr = tr0 ++ [Event.od_bepop 0 (some 7)] ++ session_trace 7 demo_exchanges ++
        [Event.od_read odio_t.client (some msg_terminate)] ∧
      tr.filter Event.is_transfer =
        session_trace 7 demo_exchanges ++ [Event.od_read odio_t.client (some msg_terminate)] ∧
      tr.filterMap Event.server_written = demo_exchanges.map Prod.fst ∧
      tr.filterMap Event.client_written = all_replies demo_exchanges :=
  ⟨by decide, by decide,
    forwarding_order_preserved demo_scenario (demo_scheme odpooling_t.OD_PSESSION) demo_client
      0 7 demo_exchanges (some msg_terminate) [] [] (by decide) rfl (by decide) (by decide)⟩

/-! ## Two scenarios -/

/-- C6.  Terminate as first message.  When route resolution and `od_bepop`
have succeeded and the first message read from the client is tagged `'X'`,
`od_router_session` returns `OD_RS_OK` (with any fuel but zero); its only
protocol call is that one read from the client, so nothing is written to or
read from the server and the `'X'` message is not forwarded; and `od_router`
then closes the client and calls `od_bereset`, not `od_beclose`, on the leased
server. -/
theorem terminate_first_resets_server {W : Type} (ndebug : Bool) (ext : Extern W) (fuel : Nat)
    (scheme : odscheme_t) (w w1 w2 w3 : W) (client : odclient_t) (tr0 : List Event)
    (route : odroute_t) (server : odserver_t) (stream : sostream_t)
    (hmode : scheme.pooling_mode = odpooling_t.OD_PSESSION)
    (hroute : od_route ext scheme w client.startup = (tr0, some route, w1))
    (hpop : ext.od_bepop w1 route = (some server, w2))
    (hread : ext.od_read w2 odio_t.client = (some stream, w3))
    (hx : stream.type = 'X') :
    od_router_session ext (fuel + 1) scheme w client =
      Run.done (tr0 ++ [Event.od_bepop route (some server),
          Event.od_read odio_t.client (some stream)])
        (odrouter_status_t.OD_RS_OK, { client with server := some server }, w3) ∧
    (tr0 ++ [Event.od_bepop route (some server),
        Event.od_read odio_t.client (some stream)]).filter Event.is_transfer =
      [Event.od_read odio_t.client (some stream)] ∧
    od_router_execute ndebug ext (fuel + 1) scheme w client =
      Run.done (tr0 ++ [Event.od_bepop route (some server),
          Event.od_read odio_t.client (some stream),
          Event.od_feclose, Event.od_bereset (some server)]) Exit.returned := by
  have hs : od_router_session ext (fuel + 1) scheme w client =
      Run.done (tr0 ++ [Event.od_bepop route (some server),
          Event.od_read odio_t.client (some stream)])
        (odrouter_status_t.OD_RS_OK, { client with server := some server }, w3) := by
    simp [od_router_session, hroute, hpop, od_router_session_loop, hread, hx, Run.emit]
  have hrt := route_trace_routing ext scheme w client.startup
  rw [hroute] at hrt
  refine ⟨hs, ?_, ?_⟩
  · simp [List.filter_append, filter_nil_of_kind _ _ routing_not_transfer tr0 hrt,
      Event.is_transfer]
  · simp [od_router_execute, hmode, hs, od_router_cleanup]

/-- Witness of C6: the scripted client sends `'X'` at once. -/
theorem terminate_first_resets_server_witness :
    (demo_scheme odpooling_t.OD_PSESSION).pooling_mode = odpooling_t.OD_PSESSION ∧
    msg_terminate.type = 'X' ∧
    od_router_execute false (script_ext demo_scenario) (0 + 1)
        (demo_scheme odpooling_t.OD_PSESSION) ⟨[msg_terminate], [msg_ready], []⟩ demo_client =
      Run.done ([Event.od_routepool_match (od_route_id demo_route demo_startup) none,
          Event.od_routepool_new demo_route (od_route_id demo_route demo_startup) (some 0)] ++
        [Event.od_bepop 0 (some 7), Event.od_read odio_t.client (some msg_terminate),
          Event.od_feclose, Event.od_bereset (some 7)]) Exit.returned :=
  ⟨rfl, rfl,
    (terminate_first_resets_server false (script_ext demo_scenario) 0
      (demo_scheme odpooling_t.OD_PSESSION) ⟨[msg_terminate], [msg_ready], []⟩
      ⟨[msg_terminate], [msg_ready], [od_route_id demo_route demo_startup]⟩
      ⟨[msg_terminate], [msg_ready], [od_route_id demo_route demo_startup]⟩
      ⟨[], [msg_ready], [od_route_id demo_route demo_startup]⟩
      demo_client _ 0 7 msg_terminate rfl (by decide) rfl rfl rfl).2.2⟩

/-- C7, as the code has it.  When the client sends one request (not tagged
`'X'`), the server answers with a single message tagged `'Z'`, all those reads
and writes succeed, and the next read from the client gives `fin`, either a
terminate message `'X'` or a failure: the session returns (with any fuel from 2
on) after exactly these five protocol calls; its outcome is `OD_RS_OK` when the
terminate message came and `OD_RS_ECLIENT_READ` when the read failed; in both
cases `od_router` closes the client and resets the leased server. -/
theorem single_exchange_resets_server {W : Type} (ndebug : Bool) (ext : Extern W) (fuel : Nat)
    (scheme : odscheme_t) (w w1 w2 w3 w4 w5 w6 w7 : W) (client : odclient_t)
    (tr0 : List Event) (route : odroute_t) (server : odserver_t)
    (request reply : sostream_t) (fin : Option sostream_t)
    (hmode : scheme.pooling_mode = odpooling_t.OD_PSESSION)
    (hroute : od_route ext scheme w client.startup = (tr0, some route, w1))
    (hpop : ext.od_bepop w1 route = (some server, w2))
    (hread1 : ext.od_read w2 odio_t.client = (some request, w3))
    (hrequest : request.type ≠ 'X')
    (hwrite1 : ext.od_write w3 (odio_t.server server) request = (true, w4))
    (hread2 : ext.od_read w4 (odio_t.server server) = (some reply, w5))
    (hwrite2 : ext.od_write w5 odio_t.client reply = (true, w6))
    (hreply : reply.type = 'Z')
    (hread3 : ext.od_read w6 odio_t.client = (fin, w7))
    (hfin : ∀ m ∈ fin, m.type = 'X') :
    od_router_session ext (fuel + 2) scheme w client =
      Run.done (tr0 ++ [Event.od_bepop route (some server),
          Event.od_read odio_t.client (some request),
          Event.od_write (odio_t.server server) request true,
          Event.od_read (odio_t.server server) (some reply),
          Event.od_write odio_t.client reply true,
          Event.od_read odio_t.client fin])
        (closing_status fin, { client with server := some server }, w7) ∧
    (closing_status fin = odrouter_status_t.OD_RS_OK ↔ fin.isSome = true) ∧
    (closing_status fin = odrouter_status_t.OD_RS_ECLIENT_READ ↔ fin = none) ∧
    od_router_execute ndebug ext (fuel + 2) scheme w client =
      Run.done (tr0 ++ [Event.od_bepop route (some server),
          Event.od_read odio_t.client (some request),
          Event.od_write (odio_t.server server) request true,
          Event.od_read (odio_t.server server) (some reply),
          Event.od_write odio_t.client reply true,
          Event.od_read odio_t.client fin,
          Event.od_feclose, Event.od_bereset (some server)]) Exit.returned := by
  have hs : od_router_session ext (fuel + 2) scheme w client =
      Run.done (tr0 ++ [Event.od_bepop route (some server),
          Event.od_read odio_t.client (some request),
          Event.od_write (odio_t.server server) request true,
          Event.od_read (odio_t.server server) (some reply),
          Event.od_write odio_t.client reply true,
          Event.od_read odio_t.client fin])
        (closing_status fin, { client with server := some server }, w7) := by
    cases fin with
    | none =>
      simp [od_router_session, hroute, hpop, od_router_session_loop, od_router_session_feed,
        hread1, hrequest, hwrite1, hread2, hwrite2, hreply, hread3, Run.emit, closing_status]
    | some x =>
      have hxx : x.type = 'X' := hfin x rfl
      simp [od_router_session, hroute, hpop, od_router_session_loop, od_router_session_feed,
        hread1, hrequest, hwrite1, hread2, hwrite2, hreply, hread3, Run.emit, closing_status,
        hxx]
  refine ⟨hs, ?_, ?_, ?_⟩
  · cases fin <;> simp [closing_status]
  · cases fin <;> simp [closing_status]
  · cases fin <;> simp [od_router_execute, hmode, hs, od_router_cleanup, closing_status]

/-- Witness of C7: one request, one ready message, then terminate. -/
theorem single_exchange_resets_server_witness :
    (demo_scheme odpooling_t.OD_PSESSION).pooling_mode = odpooling_t.OD_PSESSION ∧
    msg_query.type ≠ 'X' ∧ msg_ready.type = 'Z' ∧ (∀ m ∈ some msg_terminate, m.type = 'X') ∧
    od_router_session (script_ext demo_scenario) (0 + 2) (demo_scheme odpooling_t.OD_PSESSION)
        ⟨[msg_query, msg_terminate], [msg_ready], []⟩ demo_client =
      Run.done ([Event.od_routepool_match (od_route_id demo_route demo_startup) none,
          Event.od_routepool_new demo_route (od_route_id demo_route demo_startup) (some 0)] ++
        [Event.od_bepop 0 (some 7),
          Event.od_read odio_t.client (some msg_query),
          Event.od_write (odio_t.server 7) msg_query true,
          Event.od_read (odio_t.server 7) (some msg_ready),
          Event.od_write odio_t.client msg_ready true,
          Event.od_read odio_t.client (some msg_terminate)])
        (closing_status (some msg_terminate), { demo_client with server := some 7 },
          ⟨[], [], [od_route_id demo_route demo_startup]⟩) :=
  ⟨rfl, by decide, rfl, by decide,
    (single_exchange_resets_server false (script_ext demo_scenario) 0
      (demo_scheme odpooling_t.OD_PSESSION)
      ⟨[msg_query, msg_terminate], [msg_ready], []⟩
      ⟨[msg_query, msg_terminate], [msg_ready], [od_route_id demo_route demo_startup]⟩
      ⟨[msg_query, msg_terminate], [msg_ready], [od_route_id demo_route demo_startup]⟩
      ⟨[msg_terminate], [msg_ready], [od_route_id demo_route demo_startup]⟩
      ⟨[msg_terminate], [msg_ready], [od_route_id demo_route demo_startup]⟩
      ⟨[msg_terminate], [], [od_route_id demo_route demo_startup]⟩
      ⟨[msg_terminate], [], [od_route_id demo_route demo_startup]⟩
      ⟨[], [], [od_route_id demo_route demo_startup]⟩
      demo_client _ 0 7 msg_query msg_ready (some msg_terminate)
      rfl (by decide) rfl rfl (by decide) rfl rfl rfl rfl rfl (by decide)).1⟩

/-- Counterexample to C7 as stated: the client sends exactly one request, the
server answers with a single message tagged `'Z'`, all those reads and writes
succeed, and the client then goes away; the session outcome is
`OD_RS_ECLIENT_READ`, not `OD_RS_OK`. -/
theorem single_exchange_outcome_not_ok :
    od_router_session (script_ext demo_scenario) 3 (demo_scheme odpooling_t.OD_PSESSION)
        ⟨[msg_query], [msg_ready], []⟩ demo_client =
      Run.done [Event.od_routepool_match (od_route_id demo_route demo_startup) none,
          Event.od_routepool_new demo_route (od_route_id demo_route demo_startup) (some 0),
          Event.od_bepop 0 (some 7),
          Event.od_read odio_t.client (some msg_query),
          Event.od_write (odio_t.server 7) msg_query true,
          Event.od_read (odio_t.server 7) (some msg_ready),
          Event.od_write odio_t.client msg_ready true,
          Event.od_read odio_t.client none]
        (odrouter_status_t.OD_RS_ECLIENT_READ, { demo_client with server := some 7 },
          ⟨[], [], [od_route_id demo_route demo_startup]⟩) ∧
    odrouter_status_t.OD_RS_ECLIENT_READ ≠ odrouter_status_t.OD_RS_OK := by
  decide

/-! ## Route resolution -/

/-- C8.  Override precedence.  For every startup identity and every route
scheme `od_route` selects, the route identity `od_route` looks up, and creates
when the lookup finds nothing, has as database the database the scheme forces
whenever it forces one (not the client's) and the client's database otherwise,
and independently as user the user the scheme forces whenever it forces one
and the client's user otherwise.  A forced string comes with the length
`strlen + 1`, a client string with the length of the startup packet; so both
length fields describe the strings used whenever those of the startup packet
do. -/
theorem route_identity_override {W : Type} (ext : Extern W) (scheme : odscheme_t) (w : W)
    (startup : sobestartup_t) (route_scheme : odscheme_route_t)
    (hscheme : od_route_scheme ext scheme startup = some route_scheme) :
    (∀ x, route_scheme.database = some x →
      (od_route_id route_scheme startup).database = x ∧
      (od_route_id route_scheme startup).database_len = strlen x + 1) ∧
    (route_scheme.database = none →
      (od_route_id route_scheme startup).database = startup.database ∧
      (od_route_id route_scheme startup).database_len = startup.database_len) ∧
    (∀ u, route_scheme.user = some u →
      (od_route_id route_scheme startup).user = u ∧
      (od_route_id route_scheme startup).user_len = strlen u + 1) ∧
    (route_scheme.user = none →
      (od_route_id route_scheme startup).user = startup.user ∧
      (od_route_id route_scheme startup).user_len = startup.user_len) ∧
    (startup.database_len = strlen startup.database + 1 →
      (od_route_id route_scheme startup).database_len =
        strlen (od_route_id route_scheme startup).database + 1) ∧
    (startup.user_len = strlen startup.user + 1 →
      (od_route_id route_scheme startup).user_len =
        strlen (od_route_id route_scheme startup).user + 1) ∧
    ((∃ route, od_route ext scheme w startup =
        ([Event.od_routepool_match (od_route_id route_scheme startup) (some route)],
          some route, w)) ∨
      (∃ result w1, od_route ext scheme w startup =
        ([Event.od_routepool_match (od_route_id route_scheme startup) none,
          Event.od_routepool_new route_scheme (od_route_id route_scheme startup) result],
          result, w1))) := by
  refine ⟨?_, ?_, ?_, ?_, ?_, ?_, ?_⟩
  · intro x hx
    cases hu : route_scheme.user <;> simp [od_route_id, hx, hu]
  · intro hx
    cases hu : route_scheme.user <;> simp [od_route_id, hx, hu]
  · intro u hu
    cases hx : route_scheme.database <;> simp [od_route_id, hx, hu]
  · intro hu
    cases hx : route_scheme.database <;> simp [od_route_id, hx, hu]
  · intro hlen
    cases hx : route_scheme.database <;> cases hu : route_scheme.user <;>
      simp [od_route_id, hx, hu, hlen]
  · intro hlen
    cases hx : route_scheme.database <;> cases hu : route_scheme.user <;>
      simp [od_route_id, hx, hu, hlen]
  · rcases route_trace_cases ext scheme w startup with ⟨h1, _⟩ | ⟨rs, route, h1, _, h2⟩ |
      ⟨rs, result, w1, h1, _, _, h2⟩
    · rw [h1] at hscheme; simp at hscheme
    · rw [h1] at hscheme
      simp at hscheme
      subst hscheme
      exact Or.inl ⟨route, h2⟩
    · rw [h1] at hscheme
      simp at hscheme
      subst hscheme
      exact Or.inr ⟨result, w1, h2⟩

/-- Witness of C8: the client asks for `"app"` as `"bob"`, the route forces
the database `"prod"`; the identity is (`"prod"`, 5, `"bob"`, 4). -/
theorem route_identity_override_witness :
    od_route_scheme (script_ext demo_scenario) (demo_scheme odpooling_t.OD_PSESSION)
      demo_startup = some demo_route ∧
    od_route_id demo_route demo_startup =
      { database := "prod", database_len := 5, user := "bob", user_len := 4 } ∧
    (od_route_id demo_route demo_startup).database = "prod" ∧
    (od_route_id demo_route demo_startup).database_len = strlen "prod" + 1 :=
  ⟨rfl, by decide,
    (route_identity_override (script_ext demo_scenario) (demo_scheme odpooling_t.OD_PSESSION)
      ⟨[], [], []⟩ demo_startup demo_route rfl).1 "prod" rfl⟩

theorem route_scheme_none {W : Type} (ext : Extern W) (scheme : odscheme_t)
    (startup : sobestartup_t) :
    od_route_scheme ext scheme startup = none ↔
      ext.od_schemeroute_match scheme startup.database = none ∧
        scheme.routing_default = none := by
  unfold od_route_scheme
  cases hm : ext.od_schemeroute_match scheme startup.database <;> simp

/-- C9, as the code has it.  `od_route` uses the scheme `od_schemeroute_match`
returns for the requested database when there is one and the configured default
only when none matches; every route pool call it makes is for that scheme and
the route identity computed from it.
`od_router_session` returns `OD_RS_EROUTE` if and only if either no scheme
matches and no default is configured, or a scheme was selected, no route exists
for the route identity and `od_routepool_new` fails to allocate one.  When the
session returns `OD_RS_EROUTE` no server is acquired: `od_bepop` is not
called. -/
theorem route_failure_iff {W : Type} (ext : Extern W) (fuel : Nat) (scheme : odscheme_t)
    (w : W) (client : odclient_t) :
    (∀ rs, ext.od_schemeroute_match scheme client.startup.database = some rs →
      od_route_scheme ext scheme client.startup = some rs) ∧
    (ext.od_schemeroute_match scheme client.startup.database = none →
      od_route_scheme ext scheme client.startup = scheme.routing_default) ∧
    (∀ e ∈ (od_route ext scheme w client.startup).1,
      ∃ rs, od_route_scheme ext scheme client.startup = some rs ∧
        ((∃ result, e = Event.od_routepool_match (od_route_id rs client.startup) result) ∨
          (∃ result, e = Event.od_routepool_new rs (od_route_id rs client.startup) result))) ∧
    ((∃ tr c1 w1, od_router_session ext fuel scheme w client =
        Run.done tr (odrouter_status_t.OD_RS_EROUTE, c1, w1)) ↔
      ((ext.od_schemeroute_match scheme client.startup.database = none ∧
          scheme.routing_default = none) ∨
        (∃ rs, od_route_scheme ext scheme client.startup = some rs ∧
          ext.od_routepool_match w (od_route_id rs client.startup) = none ∧
          (ext.od_routepool_new w rs (od_route_id rs client.startup)).1 = none))) ∧
    (∀ tr c1 w1, od_router_session ext fuel scheme w client =
        Run.done tr (odrouter_status_t.OD_RS_EROUTE, c1, w1) →
      tr.filter Event.is_bepop = [] ∧ c1 = client) := by
  refine ⟨?_, ?_, ?_, ?_, ?_⟩
  · intro rs hm
    simp [od_route_scheme, hm]
  · intro hm
    simp [od_route_scheme, hm]
  · intro e hmem
    rcases route_trace_cases ext scheme w client.startup with ⟨_, h⟩ | ⟨rs1, route, h1, _, h⟩ |
      ⟨rs1, res1, w1, h1, _, _, h⟩
    · rw [h] at hmem; simp at hmem
    · rw [h] at hmem
      simp at hmem
      exact ⟨rs1, h1, Or.inl ⟨some route, hmem⟩⟩
    · rw [h] at hmem
      simp at hmem
      rcases hmem with hmem | hmem
      · exact ⟨rs1, h1, Or.inl ⟨none, hmem⟩⟩
      · exact ⟨rs1, h1, Or.inr ⟨res1, hmem⟩⟩
  · constructor
    · rintro ⟨tr, c1, w1, h⟩
      rcases session_done ext fuel scheme w client tr _ c1 w1 h with
        ⟨hr, _, _⟩ | ⟨_, _, _, _, _, _, hst, _⟩ | ⟨_, _, _, server, w3, tr1, _, _, hl, _, _⟩
      · rcases route_trace_cases ext scheme w client.startup with ⟨h1, _⟩ |
          ⟨_, _, _, _, h2⟩ | ⟨rs, result, w2, h1, hm, hn, h2⟩
        · exact Or.inl ((route_scheme_none ext scheme client.startup).1 h1)
        · rw [h2] at hr; simp at hr
        · rw [h2] at hr
          simp at hr
          refine Or.inr ⟨rs, h1, hm, ?_⟩
          rw [hn]; exact hr.2.1
      · simp at hst
      · obtain ⟨_, last, _, _, hlast⟩ := (loop_spec ext server fuel w3).1 tr1 _ w1 hl
        rcases terminal_event_range last _ hlast with h1 | h1 | h1 | h1 | h1 <;> simp at h1
    · rintro (hnone | ⟨rs, h1, hm, hn⟩)
      · have h1 := (route_scheme_none ext scheme client.startup).2 hnone
        exact ⟨[], client, w, by simp [od_router_session, od_route, h1]⟩
      · rcases hnew : ext.od_routepool_new w rs (od_route_id rs client.startup)
          with ⟨result, w1⟩
        rw [hnew] at hn
        simp at hn
        subst hn
        exact ⟨[Event.od_routepool_match (od_route_id rs client.startup) none,
          Event.od_routepool_new rs (od_route_id rs client.startup) none], client, w1,
          by simp [od_router_session, od_route, h1, hm, hnew]⟩
  · intro tr c1 w1 h
    obtain ⟨_, _, hcases⟩ := session_trace_filters ext fuel scheme w client tr _ c1 w1 h
    rcases hcases with ⟨_, hc, hb⟩ | ⟨hst, _⟩ | ⟨hst, _⟩
    · exact ⟨hb, hc⟩
    · simp at hst
    · simp at hst

/-- Witness of C9: no route is declared for `"other"` and there is no default
route; the session returns `OD_RS_EROUTE`. -/
theorem route_failure_iff_witness :
    ∃ tr c1 w1, od_router_session (script_ext demo_scenario) 3
        (demo_scheme odpooling_t.OD_PSESSION) ⟨[msg_query], [msg_ready], []⟩
        { startup := demo_startup_other, server := none } =
      Run.done tr (odrouter_status_t.OD_RS_EROUTE, c1, w1) :=
  (route_failure_iff (script_ext demo_scenario) 3 (demo_scheme odpooling_t.OD_PSESSION)
    ⟨[msg_query], [msg_ready], []⟩
    { startup := demo_startup_other, server := none }).2.2.2.1.2 (Or.inl ⟨rfl, rfl⟩)

/-- Counterexample to C9 as stated: `od_schemeroute_match` returns a scheme for
the requested database `"app"`, yet route resolution fails and the session
returns `OD_RS_EROUTE`, because `od_routepool_new` returns `NULL`. -/
theorem route_failure_with_matching_scheme :
    (script_ext demo_scenario_noalloc).od_schemeroute_match
      (demo_scheme odpooling_t.OD_PSESSION) demo_client.startup.database = some demo_route ∧
    od_router_session (script_ext demo_scenario_noalloc) 3 (demo_scheme odpooling_t.OD_PSESSION)
        ⟨[msg_query], [msg_ready], []⟩ demo_client =
      Run.done [Event.od_routepool_match (od_route_id demo_route demo_startup) none,
          Event.od_routepool_new demo_route (od_route_id demo_route demo_startup) none]
        (odrouter_status_t.OD_RS_EROUTE, demo_client, ⟨[msg_query], [msg_ready], []⟩) := by
  decide

theorem created_none_of_found {W : Type} (ext : Extern W) (scheme : odscheme_t)
    (id : odroute_id_t)
    (hkeep : ∀ w rs id0 result w1 id1, ext.od_routepool_new w rs id0 = (result, w1) →
      (ext.od_routepool_match w id1).isSome = true →
      (ext.od_routepool_match w1 id1).isSome = true)
    (startups : List sobestartup_t) :
    ∀ w : W, (ext.od_routepool_match w id).isSome = true →
      (od_route_all ext scheme w startups).1.filter (Event.created id) = [] := by
  induction startups with
  | nil => intro w _; rfl
  | cons startup rest ih =>
    intro w hw
    simp only [od_route_all, List.filter_append]
    rcases route_trace_cases ext scheme w startup with ⟨_, h⟩ | ⟨_, _, _, _, h⟩ |
      ⟨rs, result, w1, _, hm, hn, h⟩
    · rw [h]; simp [ih w hw]
    · rw [h]; simp [ih w hw, Event.created]
    · rw [h]
      have hne : od_route_id rs startup ≠ id := by
        intro heq
        rw [heq, ] at hm
        rw [hm] at hw
        simp at hw
      have hw1 := hkeep w rs _ result w1 id hn hw
      cases result <;> simp [ih w1 hw1, Event.created, hne]

theorem created_at_most_once {W : Type} (ext : Extern W) (scheme : odscheme_t)
    (id : odroute_id_t)
    (hfind : ∀ w rs id0 route w1, ext.od_routepool_match w id0 = none →
      ext.od_routepool_new w rs id0 = (some route, w1) →
      ext.od_routepool_match w1 id0 = some route)
    (hkeep : ∀ w rs id0 result w1 id1, ext.od_routepool_new w rs id0 = (result, w1) →
      (ext.od_routepool_match w id1).isSome = true →
      (ext.od_routepool_match w1 id1).isSome = true)
    (startups : List sobestartup_t) :
    ∀ w : W, ((od_route_all ext scheme w startups).1.filter (Event.created id)).length ≤ 1 := by
  induction startups with
  | nil => intro w; simp [od_route_all]
  | cons startup rest ih =>
    intro w
    simp only [od_route_all, List.filter_append, List.length_append]
    rcases route_trace_cases ext scheme w startup with ⟨_, h⟩ | ⟨_, _, _, _, h⟩ |
      ⟨rs, result, w1, _, hm, hn, h⟩
    · rw [h]; simpa using ih w
    · rw [h]; simpa [Event.created] using ih w
    · rw [h]
      cases result with
      | none => simpa [Event.created] using ih w1
      | some route =>
        by_cases heq : od_route_id rs startup = id
        · have hf := hfind w rs _ route w1 hm hn
          rw [heq] at hf
          have hnone := created_none_of_found ext scheme id hkeep rest w1 (by rw [hf]; rfl)
          simp [Event.created, heq, hnone]
        · simpa [Event.created, heq] using ih w1

theorem routepool_find_append_self (id : odroute_id_t) (pool : List odroute_id_t)
    (h : routepool_find id pool = none) :
    routepool_find id (pool ++ [id]) = some pool.length := by
  induction pool with
  | nil => simp [routepool_find]
  | cons x rest ih =>
    by_cases hx : x = id
    · simp [routepool_find, hx] at h
    · simp [routepool_find, hx] at h
      simp [routepool_find, hx, ih h]

theorem routepool_find_append_some (id id1 : odroute_id_t) (pool : List odroute_id_t)
    (h : (routepool_find id1 pool).isSome = true) :
    (routepool_find id1 (pool ++ [id])).isSome = true := by
  induction pool with
  | nil => simp [routepool_find] at h
  | cons x rest ih =>
    by_cases hx : x = id1
    · simp [routepool_find, hx]
    · simp [routepool_find, hx] at h
      simp [routepool_find, hx]
      exact ih h

theorem script_find (sc : Scenario) :
    ∀ (w : Script) (rs : odscheme_route_t) (id0 : odroute_id_t) (route : odroute_t)
      (w1 : Script), (script_ext sc).od_routepool_match w id0 = none →
      (script_ext sc).od_routepool_new w rs id0 = (some route, w1) →
      (script_ext sc).od_routepool_match w1 id0 = some route := by
  intro w rs id0 route w1 hm hn
  simp only [script_ext] at hm hn ⊢
  by_cases ha : sc.alloc_ok = true
  · simp [ha] at hn
    obtain ⟨h1, h2⟩ := hn
    subst h1; subst h2
    exact routepool_find_append_self id0 w.route_pool hm
  · simp [ha] at hn

theorem script_keep (sc : Scenario) :
    ∀ (w : Script) (rs : odscheme_route_t) (id0 : odroute_id_t) (result : Option odroute_t)
      (w1 : Script) (id1 : odroute_id_t),
      (script_ext sc).od_routepool_new w rs id0 = (result, w1) →
      ((script_ext sc).od_routepool_match w id1).isSome = true →
      ((script_ext sc).od_routepool_match w1 id1).isSome = true := by
  intro w rs id0 result w1 id1 hn hm
  simp only [script_ext] at hm hn ⊢
  by_cases ha : sc.alloc_ok = true
  · simp [ha] at hn
    obtain ⟨_, h2⟩ := hn
    subst h2
    exact routepool_find_append_some id0 id1 w.route_pool hm
  · simp [ha] at hn
    obtain ⟨_, h2⟩ := hn
    subst h2
    exact hm

/-- C10, as the code has it.  For a fixed configuration and a route pool in
which `od_routepool_match` finds every route `od_routepool_new` created before
for an equal identity: when the first resolution of a (database, user) pair
did not fail to allocate a route, resolving the pair a second time yields the
same result (the same route), looks up the same route identity, leaves the
route pool as it is and calls `od_routepool_new` zero times.  Over any sequence
of resolutions, `od_routepool_new` creates at most one route per route
identity. -/
theorem route_resolution_idempotent {W : Type} (ext : Extern W) (scheme : odscheme_t) (w : W)
    (startup : sobestartup_t)
    (hfind : ∀ w rs id0 route w1, ext.od_routepool_match w id0 = none →
      ext.od_routepool_new w rs id0 = (some route, w1) →
      ext.od_routepool_match w1 id0 = some route)
    (hkeep : ∀ w rs id0 result w1 id1, ext.od_routepool_new w rs id0 = (result, w1) →
      (ext.od_routepool_match w id1).isSome = true →
      (ext.od_routepool_match w1 id1).isSome = true)
    (halloc : (od_route ext scheme w startup).1.filter Event.alloc_failed = []) :
    (od_route ext scheme (od_route ext scheme w startup).2.2 startup).2.1 =
      (od_route ext scheme w startup).2.1 ∧
    (od_route ext scheme (od_route ext scheme w startup).2.2 startup).2.2 =
      (od_route ext scheme w startup).2.2 ∧
    (od_route ext scheme (od_route ext scheme w startup).2.2 startup).1.filter
      Event.is_routepool_new = [] ∧
    (∀ id1 r1 id2 r2,
      Event.od_routepool_match id1 r1 ∈ (od_route ext scheme w startup).1 →
      Event.od_routepool_match id2 r2 ∈
        (od_route ext scheme (od_route ext scheme w startup).2.2 startup).1 →
      id1 = id2) ∧
    (∀ (startups : List sobestartup_t) (id : odroute_id_t),
      ((od_route_all ext scheme w startups).1.filter (Event.created id)).length ≤ 1) := by
  have hlast : ∀ (startups : List sobestartup_t) (id : odroute_id_t),
      ((od_route_all ext scheme w startups).1.filter (Event.created id)).length ≤ 1 :=
    fun startups id => created_at_most_once ext scheme id hfind hkeep startups w
  rcases route_trace_cases ext scheme w startup with ⟨hs, h⟩ | ⟨rs, route, hs, hm, h⟩ |
    ⟨rs, result, w1, hs, hm, hn, h⟩
  · have h2 : od_route ext scheme w startup = ([], none, w) := h
    rw [h]
    simp only
    rw [h2]
    refine ⟨rfl, rfl, rfl, ?_, hlast⟩
    intro id1 r1 id2 r2 hmem; simp at hmem
  · rw [h]
    simp only
    rw [h]
    refine ⟨rfl, rfl, by simp [Event.is_routepool_new], ?_, hlast⟩
    intro id1 r1 id2 r2 hmem1 hmem2
    simp at hmem1 hmem2
    rw [hmem1.1, hmem2.1]
  · cases result with
    | none =>
      rw [h] at halloc
      simp [Event.alloc_failed] at halloc
    | some route =>
      have hf := hfind w rs _ route w1 hm hn
      have h2 : od_route ext scheme w1 startup =
          ([Event.od_routepool_match (od_route_id rs startup) (some route)], some route, w1) := by
        simp [od_route, hs, hf]
      rw [h]
      simp only
      rw [h2]
      refine ⟨rfl, rfl, by simp [Event.is_routepool_new], ?_, hlast⟩
      intro id1 r1 id2 r2 hmem1 hmem2
      simp at hmem1 hmem2
      rw [hmem1.1, hmem2.1]

/-- Witness of C10: the first resolution of (`"app"`, `"bob"`) creates route
`0`, the second finds it. -/
theorem route_resolution_idempotent_witness :
    (od_route (script_ext demo_scenario) (demo_scheme odpooling_t.OD_PSESSION) ⟨[], [], []⟩
      demo_startup).1.filter Event.alloc_failed = [] ∧
    od_route (script_ext demo_scenario) (demo_scheme odpooling_t.OD_PSESSION) ⟨[], [], []⟩
        demo_startup =
      ([Event.od_routepool_match (od_route_id demo_route demo_startup) none,
        Event.od_routepool_new demo_route (od_route_id demo_route demo_startup) (some 0)],
        some 0, ⟨[], [], [od_route_id demo_route demo_startup]⟩) ∧
    (od_route (script_ext demo_scenario) (demo_scheme odpooling_t.OD_PSESSION)
        (od_route (script_ext demo_scenario) (demo_scheme odpooling_t.OD_PSESSION) ⟨[], [], []⟩
          demo_startup).2.2 demo_startup).2.1 =
      (od_route (script_ext demo_scenario) (demo_scheme odpooling_t.OD_PSESSION) ⟨[], [], []⟩
        demo_startup).2.1 :=
  ⟨by decide, by decide,
    (route_resolution_idempotent (script_ext demo_scenario)
      (demo_scheme odpooling_t.OD_PSESSION) ⟨[], [], []⟩ demo_startup
      (script_find demo_scenario) (script_keep demo_scenario) (by decide)).1⟩

/-- Counterexample to C10 as stated: in a route pool that finds every route
created before, a first resolution in which `od_routepool_new` returns `NULL`
is followed by a second resolution of the same pair that calls
`od_routepool_new` again, once, not zero times. -/
theorem second_resolution_allocates_again :
    (∀ (w : Script) (rs : odscheme_route_t) (id0 : odroute_id_t) (route : odroute_t)
      (w1 : Script), (script_ext demo_scenario_noalloc).od_routepool_match w id0 = none →
      (script_ext demo_scenario_noalloc).od_routepool_new w rs id0 = (some route, w1) →
      (script_ext demo_scenario_noalloc).od_routepool_match w1 id0 = some route) ∧
    (∀ (w : Script) (rs : odscheme_route_t) (id0 : odroute_id_t) (result : Option odroute_t)
      (w1 : Script) (id1 : odroute_id_t),
      (script_ext demo_scenario_noalloc).od_routepool_new w rs id0 = (result, w1) →
      ((script_ext demo_scenario_noalloc).od_routepool_match w id1).isSome = true →
      ((script_ext demo_scenario_noalloc).od_routepool_match w1 id1).isSome = true) ∧
    od_route (script_ext demo_scenario_noalloc) (demo_scheme odpooling_t.OD_PSESSION)
        ⟨[], [], []⟩ demo_startup =
      ([Event.od_routepool_match (od_route_id demo_route demo_startup) none,
        Event.od_routepool_new demo_route (od_route_id demo_route demo_startup) none],
        none, ⟨[], [], []⟩) ∧
    (od_route (script_ext demo_scenario_noalloc) (demo_scheme odpooling_t.OD_PSESSION)
        (od_route (script_ext demo_scenario_noalloc) (demo_scheme odpooling_t.OD_PSESSION)
          ⟨[], [], []⟩ demo_startup).2.2 demo_startup).1.filter Event.is_routepool_new =
      [Event.od_routepool_new demo_route (od_route_id demo_route demo_startup) none] :=
  ⟨script_find demo_scenario_noalloc, script_keep demo_scenario_noalloc, by decide, by decide⟩

/-- Witness of C4: the server goes away in the middle of its answer; the
failed server read is the first terminal event, the session returns and the
outcome is `OD_RS_ESERVER_READ`. -/
theorem session_outcome_is_first_terminal_event_witness :
    Event.od_read (odio_t.server 7) none ∈
      (od_router_session (script_ext demo_scenario) 3 (demo_scheme odpooling_t.OD_PSESSION)
        ⟨[msg_query], [msg_data], []⟩ demo_client).trace ∧
    terminal_event (Event.od_read (odio_t.server 7) none) =
      some odrouter_status_t.OD_RS_ESERVER_READ ∧
    (∃ tr c1 w1,
      od_router_session (script_ext demo_scenario) 3 (demo_scheme odpooling_t.OD_PSESSION)
          ⟨[msg_query], [msg_data], []⟩ demo_client =
        Run.done tr (odrouter_status_t.OD_RS_ESERVER_READ, c1, w1) ∧
      tr.getLast? = some (Event.od_read (odio_t.server 7) none)) ∧
    od_router_session (script_ext demo_scenario) 3 (demo_scheme odpooling_t.OD_PSESSION)
        ⟨[msg_query], [msg_data], []⟩ demo_client =
      Run.done demo_close_trace (odrouter_status_t.OD_RS_ESERVER_READ,
        { demo_client with server := some 7 },
        ⟨[], [], [od_route_id demo_route demo_startup]⟩) ∧
    ((∃ pre last, demo_close_trace = pre ++ [last] ∧ quiet pre ∧
        terminal_event last = some odrouter_status_t.OD_RS_ESERVER_READ) ∧
      (odrouter_status_t.OD_RS_ESERVER_READ = odrouter_status_t.OD_RS_OK ↔
        ∃ m, last_client_message demo_close_trace = some m ∧ m.type = 'X')) :=
  ⟨by decide, rfl,
    (session_outcome_is_first_terminal_event (script_ext demo_scenario) 3
      (demo_scheme odpooling_t.OD_PSESSION) ⟨[msg_query], [msg_data], []⟩ demo_client).2.1
      (Event.od_read (odio_t.server 7) none) odrouter_status_t.OD_RS_ESERVER_READ
      (by decide) rfl,
    by decide,
    ((session_outcome_is_first_terminal_event (script_ext demo_scenario) 3
      (demo_scheme odpooling_t.OD_PSESSION) ⟨[msg_query], [msg_data], []⟩ demo_client).2.2.1
      demo_close_trace odrouter_status_t.OD_RS_ESERVER_READ
      { demo_client with server := some 7 }
      ⟨[], [], [od_route_id demo_route demo_startup]⟩ (by decide)).2.1
      ⟨0, 7, by decide⟩⟩

end Odyssey
